import Mathlib

/-!
Order creation and inventory reconciliation.

A shallow embedding of the order mutations of `src/graphql/resolvers.js`
(`createOrder`, `updateOrderStatus`, `cancelOrder`, `updateProductStock`) together with
the parts of the Mongoose schemas of `src/models/Order.js` and `src/models/Product.js`
that these mutations depend on; of the product mutations `createProduct` and
`deleteProduct`; of the queries `order`, `orders` and `orderStats` with their REST siblings
in `server.js` and `src/routes/adminRoutes.js`; of the virtuals of the order schema; and of
the client cart of `src/public/cart.js`.

Modelling conventions.

* Identifiers (`ObjectId`) are natural numbers.
* JavaScript numbers holding money (`price`, `total`) are rationals.  `validateItems` and
  `createOrder` compute on them in exact arithmetic, with the tolerance `0.01` as the
  rational `1/100`; `validateItems64` and `createOrder64` round the result of every
  arithmetic operation to the nearest binary64 value (`roundDouble`), which decides the
  outcome where a difference lies at the tolerance.
* GraphQL `Int` values (`quantity`, `stock`) are integers; they may be zero or negative.
* The product collection is a finite map `ObjectId → Option Product`; the order collection
  is the list of stored documents in insertion order.
* `await`ed storage calls run to completion one after the other: a resolver is a function
  from the store before the call to a response and the store after the call.
* The `User` collection (the `orders` back-reference pushed by `createOrder`, and
  `populate`) is not part of the store: it never influences products or orders.
-/

namespace Shop

abbrev ObjectId := Nat

/-- The fields of a `Product` document that the order mutations read or write. -/
structure Product where
  name : String
  price : ℚ
  stock : Int
deriving DecidableEq

/-- GraphQL input type `OrderItemInput`. -/
structure OrderItemInput where
  product : ObjectId
  name : String
  price : ℚ
  quantity : Int
  image : Option String
deriving DecidableEq

/-- A line item as embedded in a stored `Order` document (`orderSchema.items`). -/
structure OrderItem where
  product : ObjectId
  name : String
  price : ℚ
  quantity : Int
  image : String
deriving DecidableEq

/-- The four address fields of `ShippingAddressInput` and `orderSchema.shippingAddress`. -/
structure ShippingAddress where
  address : String
  city : String
  postalCode : String
  country : String
deriving DecidableEq

/-- GraphQL input type `CreateOrderInput`.  The resolver itself tests `!input.items`, so the
list is optional here. -/
structure CreateOrderInput where
  items : Option (List OrderItemInput)
  total : ℚ
  shippingAddress : ShippingAddress
  notes : Option String
deriving DecidableEq

/-- The values of the `status` enum of `orderSchema`. -/
inductive OrderStatus where
  | pending
  | completed
  | cancelled
deriving DecidableEq, Repr

/-- A stored `Order` document. -/
structure Order where
  id : ObjectId
  user : ObjectId
  items : List OrderItem
  total : ℚ
  status : OrderStatus
  shippingAddress : ShippingAddress
  paymentMethod : String
  notes : String
  createdAt : Nat
  updatedAt : Nat
deriving DecidableEq

/-- The authenticated principal placed in the GraphQL context (`context.user`). -/
structure Principal where
  id : ObjectId
  role : String
deriving DecidableEq

/-- The two collections the order mutations work on. -/
structure Store where
  products : ObjectId → Option Product
  orders : List Order

/-- Why the `catch` block of a resolver was reached. -/
inductive Thrown where
  | notAuthenticated
  | validationFailed
deriving DecidableEq, Repr

/-- The `message` of a mutation response, one constructor per message template of the
resolvers. -/
inductive Msg where
  /-- Text `El carrito está vacío`. -/
  | emptyCart
  /-- Text `Producto "<item.name>" no encontrado`. -/
  | productNotFound (itemName : String)
  /-- Text `Stock insuficiente para "<product.name>". Disponible: <product.stock>`. -/
  | insufficientStock (productName : String) (available : Int)
  /-- Text `El precio de "<product.name>" ha cambiado. Actualice el carrito.`. -/
  | priceChanged (productName : String)
  /-- Text `El total no coincide con los productos`. -/
  | totalMismatch
  /-- Text `Pedido creado exitosamente`. -/
  | orderCreated
  /-- Text `Error al crear el pedido: <error.message>`. -/
  | createOrderError (cause : Thrown)
  /-- Text `No autorizado`. -/
  | notAuthorized
  /-- Text `Estado inválido`. -/
  | invalidStatus
  /-- Text `Pedido no encontrado`. -/
  | orderNotFound
  /-- Text `Estado del pedido actualizado a ...`. -/
  | statusUpdated (status : OrderStatus)
  /-- Text `Solo se pueden cancelar pedidos en proceso`. -/
  | onlyPendingCancellable
  /-- Text `Pedido cancelado exitosamente`. -/
  | orderCancelled
  /-- Text `Error al cancelar pedido`. -/
  | cancelOrderError
  /-- Text `Error al actualizar estado del pedido`. -/
  | updateStatusError
  /-- Text `El stock no puede ser negativo`. -/
  | negativeStock
  /-- Text `Producto no encontrado`. -/
  | productMissing
  /-- Text `Stock de <product.name> actualizado a <stock>`. -/
  | stockUpdated (productName : String) (stock : Int)
  /-- Text `El precio no puede ser negativo`. -/
  | negativePrice
  /-- Text `Producto "<name>" creado exitosamente`. -/
  | productCreated (name : String)
  /-- Text `Error al crear producto`. -/
  | createProductError
  /-- Text `Producto "<product.name>" eliminado exitosamente`. -/
  | productDeleted (productName : String)
deriving DecidableEq

/-- GraphQL type `OrderResponse`. -/
structure OrderResponse where
  success : Bool
  message : Msg
  order : Option Order
deriving DecidableEq

/-- GraphQL type `ProductResponse`. -/
structure ProductResponse where
  success : Bool
  message : Msg
  product : Option Product
deriving DecidableEq

/-- The response `{ success: false, message, order: null }`. -/
def orderFailure (m : Msg) : OrderResponse :=
  { success := false, message := m, order := none }

/-- The response `{ success: false, message, product: null }`. -/
def productFailure (m : Msg) : ProductResponse :=
  { success := false, message := m, product := none }

/-! ## Schema validation (`src/models/Order.js`) -/

/-- Code points removed by `String.prototype.trim` (ECMAScript WhiteSpace and
LineTerminator). -/
def isJsWhiteSpace (c : Char) : Bool :=
  let n := c.toNat
  n == 9 || n == 10 || n == 11 || n == 12 || n == 13 || n == 32 || n == 160 ||
  n == 0x1680 || (0x2000 ≤ n && n ≤ 0x200A) || n == 0x2028 || n == 0x2029 ||
  n == 0x202F || n == 0x205F || n == 0x3000 || n == 0xFEFF

/-- The setter installed by `trim: true`. -/
def jsTrim (s : String) : String :=
  String.mk (((s.data.dropWhile isJsWhiteSpace).reverse.dropWhile isJsWhiteSpace).reverse)

/-- JavaScript `length` of a string: the number of UTF-16 code units. -/
def jsLength (s : String) : Nat :=
  (s.data.map (fun c => if c.toNat ≤ 0xFFFF then 1 else 2)).sum

/-- The `required: true` validator of a string path: the value must not be empty. -/
def requiredString (s : String) : Bool :=
  !s.data.isEmpty

/-- Validators of one element of `orderSchema.items`: `name` required, `price` with
`min: 0`, `quantity` with `min: 1` and `max: 100`. -/
def itemValid (i : OrderItem) : Bool :=
  requiredString i.name && decide (0 ≤ i.price) &&
  decide (1 ≤ i.quantity) && decide (i.quantity ≤ 100)

/-- Validators of `orderSchema.shippingAddress`: the four fields are required. -/
def addressValid (a : ShippingAddress) : Bool :=
  requiredString a.address && requiredString a.city &&
  requiredString a.postalCode && requiredString a.country

/-- The validation run by `order.save()`: every item valid, `total` with `min: 0`, the
address fields present, `paymentMethod` in its enum and `notes` within `maxlength: 500`.
(`user`, `items.product` and `status` are always present and well typed in this model.) -/
def orderValid (o : Order) : Bool :=
  o.items.all itemValid && decide (0 ≤ o.total) && addressValid o.shippingAddress &&
  (o.paymentMethod == "cash" || o.paymentMethod == "card" || o.paymentMethod == "transfer") &&
  decide (jsLength o.notes ≤ 500)

/-- Casting of a submitted line item into the `items` sub-schema: `name` is trimmed and a
missing `image` takes the default `''`. -/
def castItem (i : OrderItemInput) : OrderItem :=
  { product := i.product, name := jsTrim i.name, price := i.price, quantity := i.quantity,
    image := i.image.getD "" }

/-- Casting of the submitted address: every field is trimmed. -/
def castAddress (a : ShippingAddress) : ShippingAddress :=
  { address := jsTrim a.address, city := jsTrim a.city,
    postalCode := jsTrim a.postalCode, country := jsTrim a.country }

/-! ## Storage primitives -/

/-- `Product.findByIdAndUpdate(id, { $inc: { stock: delta } })`: adds `delta` to the stock
of the product when it exists, and does nothing otherwise.  Update validators are not
enabled, so the `min: 0` of the schema is not checked here. -/
def incStock (products : ObjectId → Option Product) (id : ObjectId) (delta : Int) :
    ObjectId → Option Product :=
  match products id with
  | none => products
  | some p => Function.update products id (some { p with stock := p.stock + delta })

/-- `Order.findById(id)`. -/
def findOrder (orders : List Order) (id : ObjectId) : Option Order :=
  orders.find? (fun o => o.id == id)

/-- The write `{ status, updatedAt }` on the order document with the given `_id`. -/
def setStatus (orders : List Order) (id : ObjectId) (st : OrderStatus) (now : Nat) :
    List Order :=
  orders.map (fun o => if o.id = id then { o with status := st, updatedAt := now } else o)

/-! ## `Mutation.createOrder` -/

/-- The validation loop of `createOrder` (resolvers.js lines 186 to 216), started with the
running value of `calculatedTotal`.  For each line item in turn: look the product up,
compare stock with quantity, compare live price with claimed price, add to the total. -/
def validateItems (products : ObjectId → Option Product) :
    List OrderItemInput → ℚ → Except Msg ℚ
  | [], calculatedTotal => .ok calculatedTotal
  | item :: rest, calculatedTotal =>
    match products item.product with
    | none => .error (.productNotFound item.name)
    | some product =>
      if product.stock < item.quantity then
        .error (.insufficientStock product.name product.stock)
      else if |product.price - item.price| > 1 / 100 then
        .error (.priceChanged product.name)
      else
        validateItems products rest (calculatedTotal + product.price * (item.quantity : ℚ))

/-- The stock update loop of `createOrder` (resolvers.js lines 241 to 247): one
`$inc: { stock: -item.quantity }` per line item, in order. -/
def decrementStock (products : ObjectId → Option Product) (items : List OrderItemInput) :
    ObjectId → Option Product :=
  items.foldl (fun ps item => incStock ps item.product (-item.quantity)) products

/-- The document built by `new Order({...})` in `createOrder`. -/
def newOrder (newId : ObjectId) (now : Nat) (user : Principal) (input : CreateOrderInput)
    (items : List OrderItemInput) (calculatedTotal : ℚ) : Order :=
  { id := newId, user := user.id, items := items.map castItem, total := calculatedTotal,
    status := .pending, shippingAddress := castAddress input.shippingAddress,
    paymentMethod := "cash", notes := jsTrim (input.notes.getD ""),
    createdAt := now, updatedAt := now }

/-- The resolver `Mutation.createOrder`.  `newId` is the identifier generated for the new
document and `now` the clock reading used for its timestamps. -/
def createOrder (s : Store) (user : Option Principal) (input : CreateOrderInput)
    (newId : ObjectId) (now : Nat) : OrderResponse × Store :=
  match user with
  | none => (orderFailure (.createOrderError .notAuthenticated), s)
  | some u =>
    match input.items with
    | none => (orderFailure .emptyCart, s)
    | some items =>
      if items.length = 0 then (orderFailure .emptyCart, s)
      else
        match validateItems s.products items 0 with
        | .error m => (orderFailure m, s)
        | .ok calculatedTotal =>
          if |calculatedTotal - input.total| > 1 / 100 then (orderFailure .totalMismatch, s)
          else
            let order := newOrder newId now u input items calculatedTotal
            if orderValid order then
              ({ success := true, message := .orderCreated, order := some order },
               { products := decrementStock s.products items,
                 orders := s.orders ++ [order] })
            else (orderFailure (.createOrderError .validationFailed), s)

/-! ## `Mutation.cancelOrder` -/

/-- The stock restoration loop of `cancelOrder` (resolvers.js lines 353 to 359): one
`$inc: { stock: item.quantity }` per stored line item, in order. -/
def restoreStock (products : ObjectId → Option Product) (items : List OrderItem) :
    ObjectId → Option Product :=
  items.foldl (fun ps item => incStock ps item.product item.quantity) products

/-- The resolver `Mutation.cancelOrder`.  The final `order.save()` validates the loaded
document again; when that validation throws, the stock increments have already been
written. -/
def cancelOrder (s : Store) (user : Option Principal) (orderId : ObjectId) (now : Nat) :
    OrderResponse × Store :=
  match user with
  | none => (orderFailure .cancelOrderError, s)
  | some u =>
    match findOrder s.orders orderId with
    | none => (orderFailure .orderNotFound, s)
    | some order =>
      if u.role ≠ "admin" ∧ order.user ≠ u.id then (orderFailure .notAuthorized, s)
      else if order.status ≠ .pending then (orderFailure .onlyPendingCancellable, s)
      else
        let products := restoreStock s.products order.items
        let cancelled := { order with status := .cancelled, updatedAt := now }
        if orderValid cancelled then
          ({ success := true, message := .orderCancelled, order := some cancelled },
           { products := products, orders := setStatus s.orders orderId .cancelled now })
        else (orderFailure .cancelOrderError, { products := products, orders := s.orders })

/-! ## `Mutation.updateOrderStatus` -/

/-- The test `['pending', 'completed', 'cancelled'].includes(status)`, returning the enum
value that the accepted string denotes. -/
def parseStatus (status : String) : Option OrderStatus :=
  if status = "pending" then some .pending
  else if status = "completed" then some .completed
  else if status = "cancelled" then some .cancelled
  else none

/-- The resolver `Mutation.updateOrderStatus`. -/
def updateOrderStatus (s : Store) (user : Option Principal) (orderId : ObjectId)
    (status : String) (now : Nat) : OrderResponse × Store :=
  match user with
  | none => (orderFailure .notAuthorized, s)
  | some u =>
    if u.role ≠ "admin" then (orderFailure .notAuthorized, s)
    else
      match parseStatus status with
      | none => (orderFailure .invalidStatus, s)
      | some st =>
        match findOrder s.orders orderId with
        | none => (orderFailure .orderNotFound, s)
        | some order =>
          ({ success := true, message := .statusUpdated st,
             order := some { order with status := st, updatedAt := now } },
           { products := s.products, orders := setStatus s.orders orderId st now })

/-! ## `Mutation.updateProductStock` -/

/-- The resolver `Mutation.updateProductStock`. -/
def updateProductStock (s : Store) (user : Option Principal) (productId : ObjectId)
    (stock : Int) : ProductResponse × Store :=
  match user with
  | none => (productFailure .notAuthorized, s)
  | some u =>
    if u.role ≠ "admin" then (productFailure .notAuthorized, s)
    else if stock < 0 then (productFailure .negativeStock, s)
    else
      match s.products productId with
      | none => (productFailure .productMissing, s)
      | some p =>
        ({ success := true, message := .stockUpdated p.name stock,
           product := some { p with stock := stock } },
         { products := Function.update s.products productId (some { p with stock := stock }),
           orders := s.orders })

/-! ## Sequences of calls -/

/-- One call of a stock-changing mutation, with its arguments. -/
inductive Call where
  | createOrder (user : Option Principal) (input : CreateOrderInput) (newId : ObjectId)
      (now : Nat)
  | cancelOrder (user : Option Principal) (orderId : ObjectId) (now : Nat)
  | updateOrderStatus (user : Option Principal) (orderId : ObjectId) (status : String)
      (now : Nat)
  | updateProductStock (user : Option Principal) (productId : ObjectId) (stock : Int)

/-- The store after one call. -/
def Call.run (s : Store) : Call → Store
  | .createOrder user input newId now => (Shop.createOrder s user input newId now).2
  | .cancelOrder user orderId now => (Shop.cancelOrder s user orderId now).2
  | .updateOrderStatus user orderId status now =>
      (Shop.updateOrderStatus s user orderId status now).2
  | .updateProductStock user productId stock =>
      (Shop.updateProductStock s user productId stock).2

/-- The store after a sequence of calls, run one after the other. -/
def runCalls (s : Store) (calls : List Call) : Store :=
  calls.foldl Call.run s

/-! ## Specification vocabulary -/

/-- The live price of a product as `createOrder` reads it (`0` when there is no such
product). -/
def livePrice (products : ObjectId → Option Product) (id : ObjectId) : ℚ :=
  match products id with
  | some p => p.price
  | none => 0

/-- The sum over the line items of live price times quantity. -/
def liveTotal (products : ObjectId → Option Product) (items : List OrderItemInput) : ℚ :=
  (items.map (fun i => livePrice products i.product * (i.quantity : ℚ))).sum

/-- The failures of the cart validation of `createOrder`: empty cart, product not found,
insufficient stock, price mismatch and total mismatch. -/
def Msg.isValidationFailure : Msg → Bool
  | .emptyCart => true
  | .productNotFound _ => true
  | .insufficientStock _ _ => true
  | .priceChanged _ => true
  | .totalMismatch => true
  | _ => false

/-- A line item passes the per-item checks: its product exists, the live stock is at least
the quantity, and live and claimed price differ by at most 0.01. -/
def linePasses (products : ObjectId → Option Product) (item : OrderItemInput) : Bool :=
  match products item.product with
  | none => false
  | some p => decide (item.quantity ≤ p.stock) && decide (|p.price - item.price| ≤ 1 / 100)

/-- The sum of the quantities of the stored line items that reference product `pid`. -/
def quantityOf (items : List OrderItem) (pid : ObjectId) : Int :=
  ((items.filter (fun i => i.product == pid)).map (fun i => i.quantity)).sum

/-- Every stored order satisfies the validators of the order schema. -/
def OrdersValid (s : Store) : Prop :=
  ∀ o ∈ s.orders, orderValid o = true

/-- Every product of the store has a stock of at least zero. -/
def StockNonneg (s : Store) : Prop :=
  ∀ id p, s.products id = some p → 0 ≤ p.stock

/-! ## Concrete stores and requests used as test inputs -/

/-- A complete shipping address. -/
def madrid : ShippingAddress :=
  { address := "Gran Via 1", city := "Madrid", postalCode := "28013", country := "ES" }

/-- An ordinary user, the owner of `aliceOrder`. -/
def alice : Principal := { id := 7, role := "user" }

/-- Another ordinary user. -/
def bob : Principal := { id := 8, role := "user" }

/-- An administrator. -/
def adminUser : Principal := { id := 1, role := "admin" }

/-- One product, `Pizza` with identifier 1, price 10 and 5 units in stock; no orders. -/
def pizzaStore : Store :=
  { products := fun id => if id = 1 then some { name := "Pizza", price := 10, stock := 5 } else none,
    orders := [] }

/-- A line for `n` units of product 1 at the claimed unit price `price`. -/
def pizzaLine (price : ℚ) (n : Int) : OrderItemInput :=
  { product := 1, name := "Pizza", price := price, quantity := n, image := none }

/-- Two products: `Pizza` (identifier 1, price 10, 3 in stock) and `Cola` (identifier 2,
price 2, 10 in stock); no orders. -/
def menuStore : Store :=
  { products := fun id =>
      if id = 1 then some { name := "Pizza", price := 10, stock := 3 }
      else if id = 2 then some { name := "Cola", price := 2, stock := 10 }
      else none,
    orders := [] }

/-- A line for `n` units of product 2 at the claimed unit price `price`. -/
def colaLine (price : ℚ) (n : Int) : OrderItemInput :=
  { product := 2, name := "Cola", price := price, quantity := n, image := none }

/-- The pending order of alice, identifier 100, for 2 pizzas and 1 cola. -/
def aliceOrder : Order :=
  { id := 100, user := 7,
    items := [{ product := 1, name := "Pizza", price := 10, quantity := 2, image := "" },
              { product := 2, name := "Cola", price := 2, quantity := 1, image := "" }],
    total := 22, status := .pending, shippingAddress := madrid, paymentMethod := "cash",
    notes := "", createdAt := 0, updatedAt := 0 }

/-- The products of `menuStore` after alice ordered 2 pizzas and 1 cola (stocks 1 and 9),
with that order still pending. -/
def orderedStore : Store :=
  { products := fun id =>
      if id = 1 then some { name := "Pizza", price := 10, stock := 1 }
      else if id = 2 then some { name := "Cola", price := 2, stock := 9 }
      else none,
    orders := [aliceOrder] }

/-- A request with the given lines and claimed total. -/
def cartOf (items : List OrderItemInput) (total : ℚ) : CreateOrderInput :=
  { items := some items, total := total, shippingAddress := madrid, notes := none }

/-! ## `createOrder` as a sequence of awaited storage calls

Between two `await`s a resolver runs without interruption; at an `await` another request
may run.  `createOrderStep` performs the code of `createOrder` up to and including its next
storage call, so that two requests can be interleaved call by call. -/

/-- A `createOrder` request of an authenticated principal. -/
structure Request where
  user : Principal
  input : CreateOrderInput
  newId : ObjectId
  now : Nat
deriving DecidableEq

/-- Where a running `createOrder` request stands. -/
inductive Phase where
  /-- Nothing has run yet. -/
  | start
  /-- Inside the validation loop, about to call `Product.findById` for the first pending
  line (or, with no line pending, about to compare the totals and build the document). -/
  | validating (pending : List OrderItemInput) (calculatedTotal : ℚ)
  /-- About to insert the validated document (`order.save()`). -/
  | saving (order : Order)
  /-- Inside the stock loop, about to call `Product.findByIdAndUpdate` for the first pending
  line (or, with no line pending, about to return). -/
  | updating (order : Order) (pending : List OrderItemInput)
  /-- The resolver has returned. -/
  | done (response : OrderResponse)
deriving DecidableEq

/-- One step of a running `createOrder` request on the current store. -/
def createOrderStep (r : Request) (s : Store) : Phase → Phase × Store
  | .start =>
    match r.input.items with
    | none => (.done (orderFailure .emptyCart), s)
    | some items =>
      if items.length = 0 then (.done (orderFailure .emptyCart), s)
      else (.validating items 0, s)
  | .validating [] calculatedTotal =>
    if |calculatedTotal - r.input.total| > 1 / 100 then
      (.done (orderFailure .totalMismatch), s)
    else
      let order := newOrder r.newId r.now r.user r.input (r.input.items.getD []) calculatedTotal
      if orderValid order then (.saving order, s)
      else (.done (orderFailure (.createOrderError .validationFailed)), s)
  | .validating (item :: rest) calculatedTotal =>
    match s.products item.product with
    | none => (.done (orderFailure (.productNotFound item.name)), s)
    | some product =>
      if product.stock < item.quantity then
        (.done (orderFailure (.insufficientStock product.name product.stock)), s)
      else if |product.price - item.price| > 1 / 100 then
        (.done (orderFailure (.priceChanged product.name)), s)
      else
        (.validating rest (calculatedTotal + product.price * (item.quantity : ℚ)), s)
  | .saving order =>
    (.updating order (r.input.items.getD []),
     { products := s.products, orders := s.orders ++ [order] })
  | .updating order [] =>
    (.done { success := true, message := .orderCreated, order := some order }, s)
  | .updating order (item :: rest) =>
    (.updating order rest,
     { products := incStock s.products item.product (-item.quantity), orders := s.orders })
  | .done response => (.done response, s)

/-- The request run alone for `n` steps. -/
def runSteps (r : Request) : Nat → Phase × Store → Phase × Store
  | 0, x => x
  | n + 1, x => runSteps r n (createOrderStep r x.2 x.1)

/-- Two requests on one store, interleaved by a schedule: `true` lets the first request take
its next step, `false` the second. -/
def interleave (a b : Request) : List Bool → Phase × Phase × Store → Phase × Phase × Store
  | [], x => x
  | true :: schedule, (pa, pb, s) =>
    interleave a b schedule ((createOrderStep a s pa).1, pb, (createOrderStep a s pa).2)
  | false :: schedule, (pa, pb, s) =>
    interleave a b schedule (pa, (createOrderStep b s pb).1, (createOrderStep b s pb).2)

/-- The request has returned with `success: true`. -/
def Phase.succeeded : Phase → Bool
  | .done response => response.success
  | _ => false

/-- The message the request has returned with, if it has returned. -/
def Phase.returned : Phase → Option Msg
  | .done response => some response.message
  | _ => none

/-! ## More specification vocabulary -/

/-- The sum over the stored line items of stored price times stored quantity. -/
def storedSum (items : List OrderItem) : ℚ :=
  (items.map (fun i => i.price * (i.quantity : ℚ))).sum

/-- The sum of the stored quantities. -/
def totalQuantity (items : List OrderItem) : Int :=
  (items.map (fun i => i.quantity)).sum

/-- The sum of the quantities of the submitted line items that reference product `pid`. -/
def orderedQuantity (items : List OrderItemInput) (pid : ObjectId) : Int :=
  ((items.filter (fun i => i.product == pid)).map (fun i => i.quantity)).sum

/-! ## More test inputs -/

/-- The store `orderedStore` after alice has cancelled her order at time 5. -/
def cancelledStore : Store :=
  (cancelOrder orderedStore (some alice) 100 5).2

/-- The order of alice as stored in `cancelledStore`. -/
def aliceCancelled : Order :=
  { aliceOrder with status := .cancelled, updatedAt := 5 }

/-- One product, `Pizza` with identifier 1 and price 10, of which a single unit is left. -/
def lastUnitStore : Store :=
  { products := fun id => if id = 1 then some { name := "Pizza", price := 10, stock := 1 } else none,
    orders := [] }

/-- The request of alice for the last pizza. -/
def aliceRequest : Request :=
  { user := alice, input := cartOf [pizzaLine 10 1] 10, newId := 100, now := 0 }

/-- The request of bob for the last pizza. -/
def bobRequest : Request :=
  { user := bob, input := cartOf [pizzaLine 10 1] 10, newId := 101, now := 0 }

/-- The schedule of the race for the last unit: both requests run up to and including
their `Product.findById` before either of them writes. -/
def raceSchedule : List Bool :=
  [true, true, false, false, true, true, true, true, false, false, false, false]

/-- The schedule in which the first request returns before the second starts. -/
def serialSchedule : List Bool :=
  [true, true, true, true, true, true, false, false, false, false, false, false]

/-! ## Product mutations (`Mutation.createProduct`, `Mutation.deleteProduct`) -/

/-- The validation run by `product.save()` on the document built by `createProduct`: `name`,
`description` and `category` required (`name` and `category` after trimming), `price` and
`stock` with `min: 0`. -/
def productValid (name description : String) (price : ℚ) (category : String) (stock : Int) :
    Bool :=
  requiredString (jsTrim name) && requiredString description &&
  requiredString (jsTrim category) && decide (0 ≤ price) && decide (0 ≤ stock)

/-- The resolver `Mutation.createProduct`.  `newId` is the identifier generated for the new
document; inserting under an identifier already in use raises a duplicate-key error.  The
`image` argument is left out, as it is not among the modelled product fields. -/
def createProduct (s : Store) (user : Option Principal) (name description : String)
    (price : ℚ) (category : String) (stock : Int) (newId : ObjectId) :
    ProductResponse × Store :=
  match user with
  | none => (productFailure .notAuthorized, s)
  | some u =>
    if u.role ≠ "admin" then (productFailure .notAuthorized, s)
    else if price < 0 then (productFailure .negativePrice, s)
    else if stock < 0 then (productFailure .negativeStock, s)
    else if productValid name description price category stock ∧ s.products newId = none then
      ({ success := true, message := .productCreated name,
         product := some { name := jsTrim name, price := price, stock := stock } },
       { products := Function.update s.products newId
           (some { name := jsTrim name, price := price, stock := stock }),
         orders := s.orders })
    else (productFailure .createProductError, s)

/-- The resolver `Mutation.deleteProduct`. -/
def deleteProduct (s : Store) (user : Option Principal) (productId : ObjectId) :
    ProductResponse × Store :=
  match user with
  | none => (productFailure .notAuthorized, s)
  | some u =>
    if u.role ≠ "admin" then (productFailure .notAuthorized, s)
    else
      match s.products productId with
      | none => (productFailure .productMissing, s)
      | some p =>
        ({ success := true, message := .productDeleted p.name, product := some p },
         { products := Function.update s.products productId none, orders := s.orders })

/-! ## Queries (`Query.order`, `Query.orders`, `Query.orderStats`) and their REST siblings -/

deriving instance DecidableEq for Except

/-- The errors raised inside the `try` block of a query resolver. -/
inductive QueryThrown where
  /-- The error `No autenticado`. -/
  | notAuthenticated
  /-- The error `Pedido no encontrado`. -/
  | orderNotFound
  /-- The error `No autorizado`. -/
  | notAuthorized
deriving DecidableEq, Repr

/-- The error a query resolver lets out of its `catch` block. -/
inductive QueryError where
  /-- The error `Error al obtener pedido`. -/
  | orderFetchFailed
  /-- The error `Error al obtener pedidos`. -/
  | ordersFetchFailed
  /-- The error `Error al obtener estadísticas`. -/
  | statsFetchFailed
deriving DecidableEq, Repr

/-- The `try` block of `Query.order` (the owner document found by `populate` is assumed to
exist). -/
def orderQueryTry (s : Store) (user : Option Principal) (id : ObjectId) :
    Except QueryThrown Order :=
  match user with
  | none => .error .notAuthenticated
  | some u =>
    match findOrder s.orders id with
    | none => .error .orderNotFound
    | some order =>
      if u.role ≠ "admin" ∧ order.user ≠ u.id then .error .notAuthorized
      else .ok order

/-- The resolver `Query.order`: whatever is raised in the `try` block is caught and replaced
by the one error of the `catch` block. -/
def orderQuery (s : Store) (user : Option Principal) (id : ObjectId) :
    Except QueryError Order :=
  match orderQueryTry s user id with
  | .ok order => .ok order
  | .error _ => .error .orderFetchFailed

/-- The string stored for a status. -/
def statusName : OrderStatus → String
  | .pending => "pending"
  | .completed => "completed"
  | .cancelled => "cancelled"

/-- `Order.find(query)` for a query with an optional `user` and an optional `status` field. -/
def findOrders (orders : List Order) (owner : Option ObjectId) (status : Option String) :
    List Order :=
  orders.filter (fun o =>
    (match owner with
      | none => true
      | some id => o.user == id) &&
    (match status with
      | none => true
      | some st => statusName o.status == st))

/-- `.sort({ createdAt: -1 })`: newest first (documents with equal creation times are kept
in one of the orders the database may return). -/
def sortNewestFirst (orders : List Order) : List Order :=
  orders.insertionSort (fun a b => b.createdAt ≤ a.createdAt)

/-- The status filter as the resolvers test it: `if (status)` is false for a missing or an
empty string. -/
def statusFilter (status : Option String) : Option String :=
  match status with
  | none => none
  | some st => if st = "" then none else some st

/-- The resolver `Query.orders`. -/
def ordersQuery (s : Store) (user : Option Principal) (status : Option String) :
    Except QueryError (List Order) :=
  match user with
  | none => .error .ordersFetchFailed
  | some u =>
    .ok (sortNewestFirst
      (findOrders s.orders (if u.role = "user" then some u.id else none) (statusFilter status)))

/-- The answers of a REST handler that are not a success. -/
inductive RestError where
  /-- Status 401, `Token no proporcionado`. -/
  | unauthenticated
  /-- Status 400, `Estado inválido`. -/
  | invalidStatus
  /-- Status 403, `Acceso denegado. Se requieren permisos de administrador`. -/
  | adminRequired
deriving DecidableEq, Repr

/-- The handler `GET /api/orders` of `server.js`; `user` is the decoded token. -/
def restOrders (s : Store) (user : Option Principal) (status : Option String) :
    Except RestError (List Order) :=
  match user with
  | none => .error .unauthenticated
  | some u =>
    match statusFilter status with
    | none => .ok (sortNewestFirst (findOrders s.orders (some u.id) none))
    | some st =>
      if parseStatus st = none then .error .invalidStatus
      else .ok (sortNewestFirst (findOrders s.orders (some u.id) (some st)))

/-- GraphQL type `OrderStats`. -/
structure OrderStats where
  total : Nat
  pending : Nat
  completed : Nat
  cancelled : Nat
  totalRevenue : ℚ
deriving DecidableEq

/-- `Order.countDocuments({ status })`. -/
def countDocuments (orders : List Order) (status : OrderStatus) : Nat :=
  (orders.filter (fun o => o.status == status)).length

/-- The aggregation `$match: { status: 'completed' }`, `$group: { _id: null, total: { $sum:
'$total' } }`: no group when nothing matches, otherwise one group holding the sum. -/
def aggregateRevenue (orders : List Order) : List ℚ :=
  match orders.filter (fun o => o.status == OrderStatus.completed) with
  | [] => []
  | o :: rest => [((o :: rest).map (fun x => x.total)).sum]

/-- The resolver `Query.orderStats`. -/
def orderStats (s : Store) (user : Option Principal) : Except QueryError OrderStats :=
  match user with
  | none => .error .statsFetchFailed
  | some u =>
    if u.role ≠ "admin" then .error .statsFetchFailed
    else
      let total := s.orders.length
      let pending := countDocuments s.orders .pending
      let completed := countDocuments s.orders .completed
      let cancelled := countDocuments s.orders .cancelled
      let revenueResult := aggregateRevenue s.orders
      let totalRevenue := if revenueResult.length > 0 then revenueResult.headD 0 else 0
      .ok { total := total, pending := pending, completed := completed,
            cancelled := cancelled, totalRevenue := totalRevenue }

/-- The handler `GET /stats` of `adminRoutes.js` behind `authenticateJWT` and
`requireAdmin`; `user` is the decoded token. -/
def restStats (s : Store) (user : Option Principal) : Except RestError OrderStats :=
  match user with
  | none => .error .unauthenticated
  | some u =>
    if u.role = "admin" then
      let totalOrders := s.orders.length
      let pendingOrders := countDocuments s.orders .pending
      let completedOrders := countDocuments s.orders .completed
      let cancelledOrders := countDocuments s.orders .cancelled
      let revenueResult := aggregateRevenue s.orders
      let totalRevenue := if revenueResult.length > 0 then revenueResult.headD 0 else 0
      .ok { total := totalOrders, pending := pendingOrders, completed := completedOrders,
            cancelled := cancelledOrders, totalRevenue := totalRevenue }
    else .error .adminRequired

/-! ## Virtuals of the order schema (`orderNumber`, `itemCount`) -/

/-- The virtual `itemCount`: `this.items.reduce((sum, item) => sum + item.quantity, 0)`. -/
def itemCount (o : Order) : Int :=
  o.items.foldl (fun sum item => sum + item.quantity) 0

/-- The character of a decimal digit. -/
def digitChar (d : Nat) : Char :=
  Char.ofNat (48 + d)

/-- The decimal digits of a number, least significant first. -/
def decimalDigitsRev : Nat → Nat → List Nat
  | 0, _ => []
  | fuel + 1, n => if n < 10 then [n] else n % 10 :: decimalDigitsRev fuel (n / 10)

/-- `Number.prototype.toString()` on a non-negative integer. -/
def numberToString (n : Nat) : List Char :=
  (decimalDigitsRev (n + 1) n).reverse.map digitChar

/-- `String.prototype.slice(-k)`: the last `k` characters, or the whole string when it is
shorter. -/
def sliceLast (k : Nat) (s : List Char) : List Char :=
  s.drop (s.length - k)

/-- `String.prototype.padStart(k, c)` for a one-character pad. -/
def padStart (k : Nat) (c : Char) (s : List Char) : List Char :=
  List.replicate (k - s.length) c ++ s

/-- `String.prototype.toUpperCase()` on the characters of a hexadecimal string. -/
def toUpperCase (s : List Char) : List Char :=
  s.map Char.toUpper

/-- `ObjectId.prototype.toString()`: the 24 lower-case hexadecimal digits of the 12 bytes
of the identifier. -/
def objectIdToString (id : ObjectId) : List Char :=
  padStart 24 '0' (Nat.toDigits 16 (id % 2 ^ 96))

/-- The virtual `orderNumber`.  `getFullYear` and `getMonth` are the calendar accessors of
`Date` in the time zone of the server, applied to the creation time of the order. -/
def orderNumber (getFullYear getMonth : Nat → Nat) (o : Order) : String :=
  let year := sliceLast 2 (numberToString (getFullYear o.createdAt))
  let month := padStart 2 '0' (numberToString (getMonth o.createdAt + 1))
  let idPart := toUpperCase (sliceLast 6 (objectIdToString o.id))
  String.mk ("ORD-".data ++ year ++ month ++ "-".data ++ idPart)

/-! ## The client cart (`src/public/cart.js`) -/

/-- An entry of `ShoppingCart.items`. -/
structure CartItem where
  id : ObjectId
  name : String
  price : ℚ
  quantity : Int
  image : String
  stock : Int
deriving DecidableEq

/-- A product as the client passes it to `addItem`. -/
structure CatalogProduct where
  id : ObjectId
  name : String
  price : ℚ
  stock : Int
  image : Option String
deriving DecidableEq

/-- The assignment `item.quantity = q` on the entry returned by
`this.items.find(item => item.id === id)`, the first entry with that identifier. -/
def setQuantity : List CartItem → ObjectId → Int → List CartItem
  | [], _, _ => []
  | item :: rest, id, q =>
    if item.id = id then { item with quantity := q } :: rest
    else item :: setQuantity rest id q

/-- `ShoppingCart.addItem(product, quantity)`: the returned flag and the items afterwards. -/
def addItem (items : List CartItem) (product : CatalogProduct) (quantity : Int) :
    Bool × List CartItem :=
  match items.find? (fun item => item.id == product.id) with
  | some existingItem =>
    let newQuantity := existingItem.quantity + quantity
    if newQuantity ≤ product.stock then (true, setQuantity items product.id newQuantity)
    else (false, items)
  | none =>
    if quantity ≤ product.stock then
      (true, items ++ [{ id := product.id, name := product.name, price := product.price,
                         quantity := quantity, image := product.image.getD "",
                         stock := product.stock }])
    else (false, items)

/-- `ShoppingCart.removeItem(productId)`: `findIndex` and `splice` remove the first entry
with that identifier. -/
def removeItem : List CartItem → ObjectId → List CartItem
  | [], _ => []
  | item :: rest, id => if item.id = id then rest else item :: removeItem rest id

/-- `ShoppingCart.updateQuantity(productId, quantity)`. -/
def updateQuantity (items : List CartItem) (productId : ObjectId) (quantity : Int) :
    List CartItem :=
  match items.find? (fun item => item.id == productId) with
  | none => items
  | some item =>
    if quantity ≤ 0 then removeItem items productId
    else if quantity ≤ item.stock then setQuantity items productId quantity
    else items

/-- `ShoppingCart.clearCart()`. -/
def clearCart (_items : List CartItem) : List CartItem := []

/-- `ShoppingCart.getTotal()`. -/
def getTotal (items : List CartItem) : ℚ :=
  items.foldl (fun sum item => sum + item.price * (item.quantity : ℚ)) 0

/-- The line item that `prepareOrderData` builds from a cart entry. -/
def toOrderLine (item : CartItem) : OrderItemInput :=
  { product := item.id, name := item.name, price := item.price, quantity := item.quantity,
    image := some item.image }

/-- `ShoppingCart.prepareOrderData(shippingAddress, notes)`. -/
def prepareOrderData (items : List CartItem) (shippingAddress : ShippingAddress)
    (notes : String) : CreateOrderInput :=
  { items := some (items.map toOrderLine), total := getTotal items,
    shippingAddress := shippingAddress, notes := some notes }

/-- One call on the cart. -/
inductive CartCall where
  | addItem (product : CatalogProduct) (quantity : Int)
  | updateQuantity (productId : ObjectId) (quantity : Int)
  | removeItem (productId : ObjectId)
  | clearCart

/-- The items after one call. -/
def CartCall.run (items : List CartItem) : CartCall → List CartItem
  | .addItem product quantity => (Shop.addItem items product quantity).2
  | .updateQuantity productId quantity => Shop.updateQuantity items productId quantity
  | .removeItem productId => Shop.removeItem items productId
  | .clearCart => Shop.clearCart items

/-- The items after a sequence of calls on a cart. -/
def runCart (items : List CartItem) (calls : List CartCall) : List CartItem :=
  calls.foldl CartCall.run items

/-! ## Test inputs for the queries, the virtuals and the cart -/

/-- A principal whose role is neither `user` nor `admin`. -/
def guest : Principal := { id := 9, role := "guest" }

/-- The catalogue entry of the pizza of `pizzaStore`. -/
def pizzaProduct : CatalogProduct :=
  { id := 1, name := "Pizza", price := 10, stock := 5, image := none }

/-- The catalogue entry of the cola of `menuStore`. -/
def colaProduct : CatalogProduct :=
  { id := 2, name := "Cola", price := 2, stock := 10, image := none }

/-- The order of alice, completed, next to a pending order of bob. -/
def statsStore : Store :=
  { products := menuStore.products,
    orders := [{ aliceOrder with status := .completed },
               { aliceOrder with id := 101, user := 8, total := 4, createdAt := 3,
                                 items := [{ product := 2, name := "Cola", price := 2,
                                             quantity := 2, image := "" }] }] }

/-- A cart holding 2 pizzas and 3 colas at the prices of `menuStore`. -/
def sampleCart : List CartItem :=
  [{ id := 1, name := "Pizza", price := 10, quantity := 2, image := "", stock := 3 },
   { id := 2, name := "Cola", price := 2, quantity := 3, image := "", stock := 10 }]

/-! ## The arithmetic of JavaScript numbers

The prices and totals that `createOrder` compares are JavaScript numbers, that is IEEE 754
binary64 values, and the operators `-`, `*` and `+=` round their exact result to the nearest
such value, a tie going to the even significand.  The definitions below give that rounding
on rationals, for values in the normal range (amounts of money are far from overflow and
from the subnormal values), and the validation of `createOrder` with every arithmetic
operation rounded.  The definitions `validateItems` and `createOrder` above make the same
checks in exact arithmetic. -/

/-- Number of binary digits of `n`, by repeated halving; `fuel` bounds the number of
halvings, and `bitLength n n` is the number of binary digits of `n`. -/
def bitLength : Nat → Nat → Nat
  | 0, _ => 0
  | fuel + 1, n => if n = 0 then 0 else bitLength fuel (n / 2) + 1

/-- The binary exponent of a non-zero rational `x`: the integer `e` with
`2 ^ e ≤ |x| < 2 ^ (e + 1)`.  The difference of the digit counts of numerator and denominator
is `e` or `e + 1`. -/
def binade (x : ℚ) : Int :=
  if (2 : ℚ) ^ ((bitLength x.num.natAbs x.num.natAbs : Int) - (bitLength x.den x.den : Int)) ≤ |x|
  then (bitLength x.num.natAbs x.num.natAbs : Int) - (bitLength x.den x.den : Int)
  else (bitLength x.num.natAbs x.num.natAbs : Int) - (bitLength x.den x.den : Int) - 1

/-- The integer nearest to `y`; half way between two integers, the even one. -/
def roundHalfEven (y : ℚ) : Int :=
  if y - (⌊y⌋ : ℚ) < 1 / 2 then ⌊y⌋
  else if y - (⌊y⌋ : ℚ) > 1 / 2 then ⌊y⌋ + 1
  else if ⌊y⌋ % 2 = 0 then ⌊y⌋ else ⌊y⌋ + 1

/-- The binary64 value nearest to `x`: `x` is scaled to a significand between `2 ^ 52` and
`2 ^ 53`, the significand is rounded to an integer, a tie going to the even one, and the
scaling is undone.  This is the value of a numeric literal or of a JSON number written as
`x`, and the result of an arithmetic operator whose exact result is `x`. -/
def roundDouble (x : ℚ) : ℚ :=
  if x = 0 then 0
  else (roundHalfEven (x * (2 : ℚ) ^ (52 - binade x)) : ℚ) * (2 : ℚ) ^ (binade x - 52)

/-- The operator `-` on numbers. -/
def sub64 (a b : ℚ) : ℚ := roundDouble (a - b)

/-- The operator `*` on numbers. -/
def mul64 (a b : ℚ) : ℚ := roundDouble (a * b)

/-- The operator `+` on numbers. -/
def add64 (a b : ℚ) : ℚ := roundDouble (a + b)

/-- The literal `0.01` of resolvers.js lines 207 and 219. -/
def tolerance64 : ℚ := roundDouble (1 / 100)

/-- The validation loop of `createOrder` (resolvers.js lines 186 to 216) on numbers: the
checks of `validateItems` in the same order, with the subtraction of line 207, the product
and the sum of line 215 rounded, and the literal `0.01` read as a number. -/
def validateItems64 (products : ObjectId → Option Product) :
    List OrderItemInput → ℚ → Except Msg ℚ
  | [], calculatedTotal => .ok calculatedTotal
  | item :: rest, calculatedTotal =>
    match products item.product with
    | none => .error (.productNotFound item.name)
    | some product =>
      if product.stock < item.quantity then
        .error (.insufficientStock product.name product.stock)
      else if |sub64 product.price item.price| > tolerance64 then
        .error (.priceChanged product.name)
      else
        validateItems64 products rest
          (add64 calculatedTotal (mul64 product.price (item.quantity : ℚ)))

/-- The resolver `Mutation.createOrder` on numbers: `createOrder` with the validation loop
`validateItems64` and the subtraction of the total check (line 219) rounded. -/
def createOrder64 (s : Store) (user : Option Principal) (input : CreateOrderInput)
    (newId : ObjectId) (now : Nat) : OrderResponse × Store :=
  match user with
  | none => (orderFailure (.createOrderError .notAuthenticated), s)
  | some u =>
    match input.items with
    | none => (orderFailure .emptyCart, s)
    | some items =>
      if items.length = 0 then (orderFailure .emptyCart, s)
      else
        match validateItems64 s.products items 0 with
        | .error m => (orderFailure m, s)
        | .ok calculatedTotal =>
          if |sub64 calculatedTotal input.total| > tolerance64 then
            (orderFailure .totalMismatch, s)
          else
            let order := newOrder newId now u input items calculatedTotal
            if orderValid order then
              ({ success := true, message := .orderCreated, order := some order },
               { products := decrementStock s.products items,
                 orders := s.orders ++ [order] })
            else (orderFailure (.createOrderError .validationFailed), s)

/-! ## Lemmas on the validation loop -/

theorem validateItems_append (products : ObjectId → Option Product)
    (pre rest : List OrderItemInput) (acc : ℚ) :
    validateItems products (pre ++ rest) acc =
      match validateItems products pre acc with
      | .ok t => validateItems products rest t
      | .error m => .error m := by
  induction pre generalizing acc with
  | nil => simp [validateItems]
  | cons item pre ih =>
    simp only [List.cons_append, validateItems]
    cases hp : products item.product with
    | none => simp
    | some p =>
      simp only
      split_ifs
      · rfl
      · rfl
      · exact ih _

theorem validateItems_ok_total (products : ObjectId → Option Product)
    (items : List OrderItemInput) (acc t : ℚ)
    (h : validateItems products items acc = .ok t) :
    t = acc + liveTotal products items := by
  induction items generalizing acc with
  | nil =>
    simp [validateItems] at h
    simp [liveTotal, h]
  | cons item items ih =>
    simp only [validateItems] at h
    cases hp : products item.product with
    | none => simp [hp] at h
    | some p =>
      simp only [hp] at h
      split_ifs at h
      have := ih _ h
      rw [this]
      simp [liveTotal, livePrice, hp, add_assoc]

theorem validateItems_ok_checked (products : ObjectId → Option Product)
    (items : List OrderItemInput) (acc t : ℚ)
    (h : validateItems products items acc = .ok t) :
    ∀ item ∈ items, ∃ p, products item.product = some p ∧ item.quantity ≤ p.stock ∧
      |p.price - item.price| ≤ 1 / 100 := by
  induction items generalizing acc with
  | nil => simp
  | cons item items ih =>
    simp only [validateItems] at h
    cases hp : products item.product with
    | none => simp [hp] at h
    | some p =>
      simp only [hp] at h
      split_ifs at h with h1 h2
      intro x hx
      rcases List.mem_cons.mp hx with rfl | hx
      · exact ⟨p, hp, not_lt.mp h1, not_lt.mp h2⟩
      · exact ih _ h x hx

/-- The outcome of the validation loop on a line whose product has too little stock, when
the lines before it pass. -/
theorem validateItems_insufficient (products : ObjectId → Option Product)
    (pre post : List OrderItemInput) (item : OrderItemInput) (acc : ℚ) (p : Product)
    (hpre : validateItems products pre 0 = .ok acc)
    (hp : products item.product = some p) (hstock : p.stock < item.quantity) :
    validateItems products (pre ++ item :: post) 0 =
      .error (.insufficientStock p.name p.stock) := by
  rw [validateItems_append, hpre]
  simp [validateItems, hp, hstock]

/-- The validation loop completes exactly on the carts all of whose lines pass the per-item
checks, and then returns the running total plus the live total of the cart. -/
theorem validateItems_of_linePasses (products : ObjectId → Option Product)
    (items : List OrderItemInput) (acc : ℚ)
    (h : ∀ item ∈ items, linePasses products item = true) :
    validateItems products items acc = .ok (acc + liveTotal products items) := by
  induction items generalizing acc with
  | nil => simp [validateItems, liveTotal]
  | cons item items ih =>
    have hitem := h item (List.mem_cons_self _ _)
    unfold linePasses at hitem
    simp only [validateItems]
    cases hp : products item.product with
    | none => simp [hp] at hitem
    | some p =>
      simp only [hp, Bool.and_eq_true, decide_eq_true_eq] at hitem ⊢
      rw [if_neg (not_lt.mpr hitem.1), if_neg (not_lt.mpr hitem.2)]
      rw [ih _ (fun x hx => h x (List.mem_cons_of_mem _ hx))]
      simp [liveTotal, livePrice, hp, add_assoc]

/-- The outcome of `createOrder` when the validation loop completes: the total comparison,
then the schema validation of `save`, then the two writes. -/
theorem createOrder_of_validate_ok (s : Store) (u : Principal) (input : CreateOrderInput)
    (newId : ObjectId) (now : Nat) (items : List OrderItemInput) (t : ℚ)
    (hitems : input.items = some items) (hne : items ≠ [])
    (hval : validateItems s.products items 0 = .ok t) :
    createOrder s (some u) input newId now =
      if |t - input.total| > 1 / 100 then (orderFailure .totalMismatch, s)
      else if orderValid (newOrder newId now u input items t) = true then
        ({ success := true, message := .orderCreated,
           order := some (newOrder newId now u input items t) },
         { products := decrementStock s.products items,
           orders := s.orders ++ [newOrder newId now u input items t] })
      else (orderFailure (.createOrderError .validationFailed), s) := by
  have hlen : items.length ≠ 0 := by simpa using hne
  unfold createOrder
  simp only [hitems, if_neg hlen, hval]

/-- The outcome of `createOrder` when the validation loop stops with a failure. -/
theorem createOrder_of_validate_error (s : Store) (u : Principal) (input : CreateOrderInput)
    (newId : ObjectId) (now : Nat) (items : List OrderItemInput) (m : Msg)
    (hitems : input.items = some items) (hne : items ≠ [])
    (hval : validateItems s.products items 0 = .error m) :
    createOrder s (some u) input newId now = (orderFailure m, s) := by
  have hlen : items.length ≠ 0 := by simpa using hne
  simp [createOrder, hitems, hlen, hval]

/-- The shape of every `createOrder` call that does not report success: the response is the
failure record for some message, and the store is returned as it was given. -/
theorem createOrder_failure_shape (s : Store) (user : Option Principal)
    (input : CreateOrderInput) (newId : ObjectId) (now : Nat)
    (h : (createOrder s user input newId now).1.success = false) :
    ∃ m, createOrder s user input newId now = (orderFailure m, s) := by
  unfold createOrder at h ⊢
  cases user with
  | none => exact ⟨_, rfl⟩
  | some u =>
    cases hi : input.items with
    | none => exact ⟨_, rfl⟩
    | some items =>
      simp only [hi] at h ⊢
      by_cases hlen : items.length = 0
      · simp only [if_pos hlen]
        exact ⟨_, rfl⟩
      · simp only [if_neg hlen] at h ⊢
        cases hv : validateItems s.products items 0 with
        | error m => exact ⟨_, rfl⟩
        | ok t =>
          simp only [hv] at h ⊢
          by_cases htot : |t - input.total| > 1 / 100
          · simp only [if_pos htot]
            exact ⟨_, rfl⟩
          · simp only [if_neg htot] at h ⊢
            by_cases hvalid : orderValid (newOrder newId now u input items t) = true
            · simp only [if_pos hvalid] at h
              simp at h
            · simp only [if_neg hvalid]
              exact ⟨_, rfl⟩

/-- The shape of every successful `createOrder` call: the caller is authenticated, the cart
is not empty, the validation loop returns the calculated total, and the call appends the new
document and runs the stock update loop. -/
theorem createOrder_success_shape (s : Store) (user : Option Principal)
    (input : CreateOrderInput) (newId : ObjectId) (now : Nat)
    (h : (createOrder s user input newId now).1.success = true) :
    ∃ u items t, user = some u ∧ input.items = some items ∧ items ≠ [] ∧
      validateItems s.products items 0 = .ok t ∧ |t - input.total| ≤ 1 / 100 ∧
      orderValid (newOrder newId now u input items t) = true ∧
      createOrder s user input newId now =
        ({ success := true, message := .orderCreated,
           order := some (newOrder newId now u input items t) },
         { products := decrementStock s.products items,
           orders := s.orders ++ [newOrder newId now u input items t] }) := by
  unfold createOrder at h ⊢
  cases user with
  | none => simp [orderFailure] at h
  | some u =>
    cases hi : input.items with
    | none => simp [hi, orderFailure] at h
    | some items =>
      simp only [hi] at h ⊢
      by_cases hlen : items.length = 0
      · simp [hlen, orderFailure] at h
      · simp only [if_neg hlen] at h ⊢
        cases hv : validateItems s.products items 0 with
        | error m => simp [hv, orderFailure] at h
        | ok t =>
          simp only [hv] at h ⊢
          by_cases htot : |t - input.total| > 1 / 100
          · simp only [if_pos htot] at h
            simp [orderFailure] at h
          · simp only [if_neg htot] at h ⊢
            by_cases hvalid : orderValid (newOrder newId now u input items t) = true
            · refine ⟨u, items, t, rfl, rfl, ?_, hv, not_lt.mp htot, hvalid, ?_⟩
              · intro hnil
                exact hlen (by simp [hnil])
              · simp only [if_pos hvalid]
            · simp only [if_neg hvalid] at h
              simp [orderFailure] at h

/-- Claim C1.  For every successful `createOrder` call the order appended to the order
collection (and returned in the response) carries as `total` the sum over the submitted line
items of live price times quantity, as read from the store during the call (every line
refers to an existing product); the value does not depend on the claimed `input.total`: any other claimed total for which the call also
succeeds stores the same total. -/
theorem createOrder_total_is_live_total (s : Store) (user : Option Principal)
    (input : CreateOrderInput) (newId : ObjectId) (now : Nat)
    (h : (createOrder s user input newId now).1.success = true) :
    ∃ items order, input.items = some items ∧
      (createOrder s user input newId now).2.orders = s.orders ++ [order] ∧
      (createOrder s user input newId now).1.order = some order ∧
      order.total = liveTotal s.products items ∧
      (∀ item ∈ items, ∃ p, s.products item.product = some p) ∧
      ∀ claimed : ℚ,
        (createOrder s user { input with total := claimed } newId now).1.success = true →
        (createOrder s user { input with total := claimed } newId now).2.orders =
          s.orders ++ [order] := by
  obtain ⟨u, items, t, hu, hi, hne, hv, htot, hvalid, heq⟩ :=
    createOrder_success_shape s user input newId now h
  refine ⟨items, newOrder newId now u input items t, hi, ?_, ?_, ?_, ?_, ?_⟩
  · rw [heq]
  · rw [heq]
  · have := validateItems_ok_total s.products items 0 t hv
    simpa [newOrder] using this
  · intro item hmem
    obtain ⟨p, hp, _⟩ := validateItems_ok_checked s.products items 0 t hv item hmem
    exact ⟨p, hp⟩
  · intro claimed hc
    obtain ⟨u2, items2, t2, hu2, hi2, _, hv2, _, _, heq2⟩ :=
      createOrder_success_shape s user { input with total := claimed } newId now hc
    have e1 : u2 = u := by
      rw [hu] at hu2
      exact (Option.some.inj hu2).symm
    have e2 : items2 = items := by
      have : input.items = some items2 := hi2
      rw [hi] at this
      exact (Option.some.inj this).symm
    subst e1 e2
    have e3 : t2 = t := by
      rw [hv] at hv2
      injection hv2 with h3
      exact h3.symm
    subst e3
    rw [heq2]
    rfl

theorem createOrder_total_is_live_total_witness :
    (createOrder pizzaStore (some alice) (cartOf [pizzaLine 10 3] (30 + 1 / 200)) 100 0).1.success
        = true ∧
    ∃ items order, (cartOf [pizzaLine 10 3] (30 + 1 / 200)).items = some items ∧
      (createOrder pizzaStore (some alice) (cartOf [pizzaLine 10 3] (30 + 1 / 200)) 100 0).2.orders
        = pizzaStore.orders ++ [order] ∧
      (createOrder pizzaStore (some alice) (cartOf [pizzaLine 10 3] (30 + 1 / 200)) 100 0).1.order
        = some order ∧
      order.total = liveTotal pizzaStore.products items ∧
      (∀ item ∈ items, ∃ p, pizzaStore.products item.product = some p) ∧
      ∀ claimed : ℚ,
        (createOrder pizzaStore (some alice)
          { cartOf [pizzaLine 10 3] (30 + 1 / 200) with total := claimed } 100 0).1.success
            = true →
        (createOrder pizzaStore (some alice)
          { cartOf [pizzaLine 10 3] (30 + 1 / 200) with total := claimed } 100 0).2.orders =
          pizzaStore.orders ++ [order] :=
  ⟨by decide!, createOrder_total_is_live_total pizzaStore (some alice)
    (cartOf [pizzaLine 10 3] (30 + 1 / 200)) 100 0 (by decide!)⟩

/-- Claim C2 (evaluation at the failing input).  In a store whose only product has 5 units
in stock, a single `createOrder` call whose cart lists that product in two lines of 3 units
each passes validation (each line is compared with the 5 units read before any decrement),
succeeds, and runs both decrements: the stock ends at -1, so the store reached by this
one-call sequence no longer has every stock at least zero. -/
theorem duplicate_lines_drive_stock_negative :
    StockNonneg pizzaStore ∧
    (createOrder pizzaStore (some alice) (cartOf [pizzaLine 10 3, pizzaLine 10 3] 60) 100 0).1.success
      = true ∧
    ((runCalls pizzaStore
        [Call.createOrder (some alice) (cartOf [pizzaLine 10 3, pizzaLine 10 3] 60) 100 0]).products
        1).map (fun p => p.stock) = some (-1) ∧
    ¬ StockNonneg (runCalls pizzaStore
        [Call.createOrder (some alice) (cartOf [pizzaLine 10 3, pizzaLine 10 3] 60) 100 0]) := by
  have hstock : ((runCalls pizzaStore
        [Call.createOrder (some alice) (cartOf [pizzaLine 10 3, pizzaLine 10 3] 60) 100 0]).products
        1).map (fun p => p.stock) = some (-1) := by decide!
  refine ⟨?_, by decide!, hstock, ?_⟩
  · intro id p hp
    unfold pizzaStore at hp
    simp only at hp
    split_ifs at hp
    cases hp
    decide
  · intro hnn
    cases hq : (runCalls pizzaStore
        [Call.createOrder (some alice) (cartOf [pizzaLine 10 3, pizzaLine 10 3] 60) 100 0]).products
        1 with
    | none => simp [hq] at hstock
    | some q =>
      have h0 := hnn 1 q hq
      simp [hq] at hstock
      omega

/-- Claim C3 (evaluation at the failing input).  In `menuStore` (3 pizzas in stock) the cart
`[2 pizzas, 1 cola, 2 pizzas]` passes validation.  When the decrement of the third line is
applied the live stock of the pizza is 1, smaller than the quantity 2; nevertheless the call
succeeds, the order is persisted, and the pizza stock ends at -1, below the minimum 0 that
the product schema declares: the decrement has no floor check and nothing is rolled back. -/
theorem createOrder_no_floor_check_at_decrement :
    ((decrementStock menuStore.products [pizzaLine 10 2, colaLine 2 1] 1).map
        (fun p => p.stock) = some 1 ∧ (1 : Int) < (pizzaLine 10 2).quantity) ∧
    (createOrder menuStore (some alice)
        (cartOf [pizzaLine 10 2, colaLine 2 1, pizzaLine 10 2] 42) 100 0).1.success = true ∧
    (createOrder menuStore (some alice)
        (cartOf [pizzaLine 10 2, colaLine 2 1, pizzaLine 10 2] 42) 100 0).2.orders.length = 1 ∧
    ((createOrder menuStore (some alice)
        (cartOf [pizzaLine 10 2, colaLine 2 1, pizzaLine 10 2] 42) 100 0).2.products 1).map
        (fun p => p.stock) = some (-1) := by
  refine ⟨⟨by decide!, by decide!⟩, by decide!, by decide!, by decide!⟩

/-- Claim C4.  Whenever the message returned by `createOrder` is one of the validation
failures (empty cart, product not found, insufficient stock, price mismatch, total
mismatch), the call reports failure, returns no order, and the store after the call is the
store before it: no order has been added and no product has been modified. -/
theorem createOrder_validation_failure_no_effect (s : Store) (user : Option Principal)
    (input : CreateOrderInput) (newId : ObjectId) (now : Nat)
    (h : (createOrder s user input newId now).1.message.isValidationFailure = true) :
    (createOrder s user input newId now).2 = s ∧
    (createOrder s user input newId now).1.success = false ∧
    (createOrder s user input newId now).1.order = none := by
  cases hs : (createOrder s user input newId now).1.success with
  | true =>
    obtain ⟨u, items, t, _, _, _, _, _, _, heq⟩ :=
      createOrder_success_shape s user input newId now hs
    rw [heq] at h
    simp [Msg.isValidationFailure] at h
  | false =>
    obtain ⟨m, heq⟩ := createOrder_failure_shape s user input newId now hs
    rw [heq]
    exact ⟨rfl, rfl, rfl⟩

theorem createOrder_validation_failure_no_effect_witness :
    (createOrder pizzaStore (some alice) (cartOf [pizzaLine 9 2] 18) 100 0).1.message.isValidationFailure
      = true ∧
    (createOrder pizzaStore (some alice) (cartOf [pizzaLine 9 2] 18) 100 0).2 = pizzaStore ∧
    (createOrder pizzaStore (some alice) (cartOf [pizzaLine 9 2] 18) 100 0).1.success = false ∧
    (createOrder pizzaStore (some alice) (cartOf [pizzaLine 9 2] 18) 100 0).1.order = none :=
  ⟨by decide!, createOrder_validation_failure_no_effect pizzaStore (some alice)
    (cartOf [pizzaLine 9 2] 18) 100 0 (by decide!)⟩

/-- Claim C5.  For an authenticated caller, `createOrder` with a missing or empty list of
line items returns the empty-cart failure with no order, and returns the store unchanged.
The guard precedes the validation loop, so no product is looked up: the response is the same
whatever the store holds. -/
theorem createOrder_empty_cart (s : Store) (u : Principal) (input : CreateOrderInput)
    (newId : ObjectId) (now : Nat)
    (h : input.items = none ∨ input.items = some []) :
    createOrder s (some u) input newId now = (orderFailure .emptyCart, s) ∧
    ∀ s2 : Store, (createOrder s2 (some u) input newId now).1 = orderFailure .emptyCart := by
  have key : ∀ s2 : Store, createOrder s2 (some u) input newId now =
      (orderFailure .emptyCart, s2) := by
    intro s2
    unfold createOrder
    rcases h with h | h
    · simp only [h]
    · simp only [h, List.length_nil, if_true]
  exact ⟨key s, fun s2 => by rw [key s2]⟩

theorem createOrder_empty_cart_witness :
    ((cartOf [] 25).items = none ∨ (cartOf [] 25).items = some []) ∧
    createOrder menuStore (some bob) (cartOf [] 25) 100 0 = (orderFailure .emptyCart, menuStore) ∧
    ∀ s2 : Store, (createOrder s2 (some bob) (cartOf [] 25) 100 0).1 = orderFailure .emptyCart :=
  ⟨Or.inr rfl, createOrder_empty_cart menuStore bob (cartOf [] 25) 100 0 (Or.inr rfl)⟩

/-! ## Lemmas on the arithmetic of numbers -/

/-- The integer chosen by `roundHalfEven` is within one half of its argument. -/
theorem roundHalfEven_error (y : ℚ) : |(roundHalfEven y : ℚ) - y| ≤ 1 / 2 := by
  have h1 : (⌊y⌋ : ℚ) ≤ y := Int.floor_le y
  have h2 : y < (⌊y⌋ : ℚ) + 1 := Int.lt_floor_add_one y
  rw [abs_le]
  unfold roundHalfEven
  split_ifs with c1 c2 c3
  · constructor <;> linarith
  · push_cast
    constructor <;> linarith
  · constructor <;> linarith
  · push_cast
    constructor <;> linarith

theorem bitLength_zero (fuel : Nat) : bitLength fuel 0 = 0 := by
  cases fuel <;> simp [bitLength]

/-- With enough fuel, `bitLength` is the number of binary digits: a non-zero `n` lies between
`2 ^ (bitLength n - 1)` and `2 ^ bitLength n`. -/
theorem bitLength_bounds (fuel : Nat) : ∀ n : Nat, n ≠ 0 → n ≤ fuel →
    2 ^ (bitLength fuel n - 1) ≤ n ∧ n < 2 ^ bitLength fuel n := by
  induction fuel with
  | zero =>
    intro n hn hf
    omega
  | succ fuel ih =>
    intro n hn hf
    rw [bitLength, if_neg hn, Nat.add_sub_cancel]
    by_cases h : n / 2 = 0
    · rw [h, bitLength_zero]
      have : n = 1 := by omega
      subst this
      simp
    · have hle : n / 2 ≤ fuel := by omega
      obtain ⟨h1, h2⟩ := ih (n / 2) h hle
      have hk : bitLength fuel (n / 2) ≠ 0 := by
        intro h0
        rw [h0] at h2
        omega
      obtain ⟨k, hk⟩ := Nat.exists_eq_succ_of_ne_zero hk
      rw [hk] at h1 h2 ⊢
      rw [Nat.succ_sub_one] at h1
      rw [Nat.succ_eq_add_one] at h2 ⊢
      rw [pow_succ] at h2 ⊢
      rw [pow_succ]
      constructor <;> omega


/-- The exponent computed by `binade` is the binary exponent: `2 ^ e ≤ |x| < 2 ^ (e + 1)`. -/
theorem binade_bounds (x : ℚ) (hx : x ≠ 0) :
    (2 : ℚ) ^ binade x ≤ |x| ∧ |x| < (2 : ℚ) ^ (binade x + 1) := by
  have hn : x.num.natAbs ≠ 0 := by
    intro h
    apply hx
    rw [Int.natAbs_eq_zero] at h
    exact Rat.zero_of_num_zero h
  have hd : x.den ≠ 0 := x.den_nz
  obtain ⟨n1, n2⟩ := bitLength_bounds x.num.natAbs x.num.natAbs hn le_rfl
  obtain ⟨d1, d2⟩ := bitLength_bounds x.den x.den hd le_rfl
  have habs : |x| = (x.num.natAbs : ℚ) / (x.den : ℚ) := by
    rw [Rat.abs_def, Rat.divInt_eq_div]
    simp only [Int.cast_natCast]
  have hdpos : (0 : ℚ) < (x.den : ℚ) := by exact_mod_cast Nat.pos_of_ne_zero hd
  have hupper : |x| < (2 : ℚ) ^ ((bitLength x.num.natAbs x.num.natAbs : Int) -
      (bitLength x.den x.den : Int) + 1) := by
    rw [habs, div_lt_iff₀ hdpos]
    have e1 : (x.num.natAbs : ℚ) < (2 : ℚ) ^ (bitLength x.num.natAbs x.num.natAbs) := by
      exact_mod_cast n2
    have e2 : (2 : ℚ) ^ (bitLength x.den x.den - 1) ≤ (x.den : ℚ) := by
      exact_mod_cast d1
    have hb : bitLength x.den x.den ≠ 0 := by
      intro h0
      rw [h0] at d2
      omega
    have e3 : (2 : ℚ) ^ ((bitLength x.num.natAbs x.num.natAbs : Int) -
        (bitLength x.den x.den : Int) + 1) * (2 : ℚ) ^ (bitLength x.den x.den - 1) =
        (2 : ℚ) ^ (bitLength x.num.natAbs x.num.natAbs) := by
      rw [← zpow_natCast, ← zpow_natCast, ← zpow_add₀ (by norm_num : (2 : ℚ) ≠ 0)]
      congr 1
      omega
    calc (x.num.natAbs : ℚ) < (2 : ℚ) ^ (bitLength x.num.natAbs x.num.natAbs) := e1
      _ = (2 : ℚ) ^ ((bitLength x.num.natAbs x.num.natAbs : Int) -
        (bitLength x.den x.den : Int) + 1) * (2 : ℚ) ^ (bitLength x.den x.den - 1) := e3.symm
      _ ≤ _ := by
        apply mul_le_mul_of_nonneg_left e2
        positivity
  have hlower : (2 : ℚ) ^ ((bitLength x.num.natAbs x.num.natAbs : Int) -
      (bitLength x.den x.den : Int) - 1) ≤ |x| := by
    rw [habs, le_div_iff₀ hdpos]
    have e1 : (2 : ℚ) ^ (bitLength x.num.natAbs x.num.natAbs - 1) ≤ (x.num.natAbs : ℚ) := by
      exact_mod_cast n1
    have e2 : (x.den : ℚ) ≤ (2 : ℚ) ^ (bitLength x.den x.den) := by
      exact_mod_cast d2.le
    have ha : bitLength x.num.natAbs x.num.natAbs ≠ 0 := by
      intro h0
      rw [h0] at n2
      omega
    have e3 : (2 : ℚ) ^ ((bitLength x.num.natAbs x.num.natAbs : Int) -
        (bitLength x.den x.den : Int) - 1) * (2 : ℚ) ^ (bitLength x.den x.den) =
        (2 : ℚ) ^ (bitLength x.num.natAbs x.num.natAbs - 1) := by
      rw [← zpow_natCast, ← zpow_natCast, ← zpow_add₀ (by norm_num : (2 : ℚ) ≠ 0)]
      congr 1
      omega
    calc (2 : ℚ) ^ ((bitLength x.num.natAbs x.num.natAbs : Int) -
        (bitLength x.den x.den : Int) - 1) * (x.den : ℚ)
        ≤ (2 : ℚ) ^ ((bitLength x.num.natAbs x.num.natAbs : Int) -
        (bitLength x.den x.den : Int) - 1) * (2 : ℚ) ^ (bitLength x.den x.den) := by
          apply mul_le_mul_of_nonneg_left e2
          positivity
      _ = (2 : ℚ) ^ (bitLength x.num.natAbs x.num.natAbs - 1) := e3
      _ ≤ _ := e1
  unfold binade
  split_ifs with h
  · exact ⟨h, hupper⟩
  · refine ⟨hlower, ?_⟩
    rw [sub_add_cancel]
    exact not_le.mp h

/-- The value chosen by `roundDouble` is within half a unit in the last place of its
argument, the unit being `2 ^ (binade x - 52)`. -/
theorem roundDouble_error (x : ℚ) (hx : x ≠ 0) :
    |roundDouble x - x| ≤ (2 : ℚ) ^ (binade x - 53) := by
  have h2 : (2 : ℚ) ≠ 0 := by norm_num
  have hpos : (0 : ℚ) < (2 : ℚ) ^ (binade x - 52) := by positivity
  have hx2 : x = x * (2 : ℚ) ^ (52 - binade x) * (2 : ℚ) ^ (binade x - 52) := by
    rw [mul_assoc, ← zpow_add₀ h2]
    simp
  have herr := roundHalfEven_error (x * (2 : ℚ) ^ (52 - binade x))
  unfold roundDouble
  rw [if_neg hx]
  have key : (roundHalfEven (x * (2 : ℚ) ^ (52 - binade x)) : ℚ) * (2 : ℚ) ^ (binade x - 52) - x =
      ((roundHalfEven (x * (2 : ℚ) ^ (52 - binade x)) : ℚ) - x * (2 : ℚ) ^ (52 - binade x)) *
        (2 : ℚ) ^ (binade x - 52) := by
    rw [sub_mul, ← hx2]
  rw [key, abs_mul, abs_of_pos hpos]
  have e : (2 : ℚ) ^ (binade x - 53) = 1 / 2 * (2 : ℚ) ^ (binade x - 52) := by
    rw [show binade x - 53 = (-1) + (binade x - 52) by ring, zpow_add₀ h2]
    norm_num
  rw [e]
  exact mul_le_mul_of_nonneg_right herr hpos.le


/-- An integer below `y` is below `roundHalfEven y`. -/
theorem le_roundHalfEven (k : Int) (y : ℚ) (h : (k : ℚ) ≤ y) : k ≤ roundHalfEven y := by
  have hk : k ≤ ⌊y⌋ := Int.le_floor.mpr h
  unfold roundHalfEven
  split_ifs <;> omega

/-- An integer above `y` is above `roundHalfEven y`. -/
theorem roundHalfEven_le (k : Int) (y : ℚ) (h : y ≤ (k : ℚ)) : roundHalfEven y ≤ k := by
  have h1 : (⌊y⌋ : ℚ) ≤ y := Int.floor_le y
  have hk : ⌊y⌋ ≤ k := by exact_mod_cast h1.trans h
  rcases lt_or_eq_of_le hk with hlt | heq
  · unfold roundHalfEven
    split_ifs <;> omega
  · have hy : y = (⌊y⌋ : ℚ) := le_antisymm (by rw [heq]; exact h) h1
    unfold roundHalfEven
    rw [if_pos (by rw [← hy]; norm_num)]
    exact hk

/-- The significand chosen by `roundDouble` has 53 binary digits: it lies between `2 ^ 52`
and `2 ^ 53` in absolute value, so `roundDouble x` is a binary64 value. -/
theorem roundDouble_significand (x : ℚ) (hx : x ≠ 0) :
    2 ^ 52 ≤ |roundHalfEven (x * (2 : ℚ) ^ (52 - binade x))| ∧
    |roundHalfEven (x * (2 : ℚ) ^ (52 - binade x))| ≤ 2 ^ 53 := by
  have h2 : (2 : ℚ) ≠ 0 := by norm_num
  obtain ⟨b1, b2⟩ := binade_bounds x hx
  have hpos : (0 : ℚ) < (2 : ℚ) ^ (52 - binade x) := by positivity
  have l1 : (2 : ℚ) ^ (52 : Nat) ≤ |x| * (2 : ℚ) ^ (52 - binade x) := by
    have : (2 : ℚ) ^ (52 : Nat) = (2 : ℚ) ^ binade x * (2 : ℚ) ^ (52 - binade x) := by
      rw [← zpow_add₀ h2, ← zpow_natCast]
      congr 1
      simp
    rw [this]
    exact mul_le_mul_of_nonneg_right b1 hpos.le
  have l2 : |x| * (2 : ℚ) ^ (52 - binade x) ≤ (2 : ℚ) ^ (53 : Nat) := by
    have : (2 : ℚ) ^ (53 : Nat) = (2 : ℚ) ^ (binade x + 1) * (2 : ℚ) ^ (52 - binade x) := by
      rw [← zpow_add₀ h2, ← zpow_natCast]
      congr 1
      push_cast
      ring
    rw [this]
    exact mul_le_mul_of_nonneg_right b2.le hpos.le
  rcases lt_or_gt_of_ne hx with hneg | hgt
  · rw [abs_of_neg hneg] at l1 l2
    have u1 : x * (2 : ℚ) ^ (52 - binade x) ≤ ((-(2 ^ 52) : Int) : ℚ) := by
      push_cast
      linarith
    have u2 : ((-(2 ^ 53) : Int) : ℚ) ≤ x * (2 : ℚ) ^ (52 - binade x) := by
      push_cast
      linarith
    have r1 := roundHalfEven_le _ _ u1
    have r2 := le_roundHalfEven _ _ u2
    rw [abs_of_nonpos (by omega)]
    constructor <;> omega
  · rw [abs_of_pos hgt] at l1 l2
    have u1 : (((2 ^ 52 : Int)) : ℚ) ≤ x * (2 : ℚ) ^ (52 - binade x) := by
      push_cast
      linarith
    have u2 : x * (2 : ℚ) ^ (52 - binade x) ≤ (((2 ^ 53 : Int)) : ℚ) := by
      push_cast
      linarith
    have r1 := le_roundHalfEven _ _ u1
    have r2 := roundHalfEven_le _ _ u2
    rw [abs_of_nonneg (by omega)]
    constructor <;> omega

/-- The binary64 values of the decimal numbers used below, and of whole amounts, which are
binary64 values already. -/
theorem roundDouble_values :
    tolerance64 = 5764607523034235 / 576460752303423488 ∧
    roundDouble (199 / 100) = 8962163258467287 / 4503599627370496 ∧
    roundDouble (1999 / 100) = 5626684784446013 / 281474976710656 ∧
    roundDouble (1001 / 100) = 5635129033747333 / 562949953421312 ∧
    roundDouble (3001 / 100) = 8447064051086787 / 281474976710656 ∧
    roundDouble 2 = 2 ∧ roundDouble 10 = 10 ∧ roundDouble 20 = 20 ∧ roundDouble 30 = 30 := by
  refine ⟨by decide!, by decide!, by decide!, by decide!, by decide!, by decide!, by decide!,
    by decide!, by decide!⟩

/-- Claim C6 (evaluation at the failing input).  The cola of `menuStore` costs 2 and a line
claims the price 1.99 for one unit, in stock: the prices differ by exactly 0.01.  On numbers
the subtraction gives a value above the number `0.01`, and `createOrder` returns the
price-changed failure and stores nothing.  The same holds for a live price of 20 against a
claimed 19.99.  A claimed price of 10.01 against the live 10 of the pizza, again 0.01 apart,
is accepted. -/
theorem price_check_refuses_one_cent :
    |(2 : ℚ) - 199 / 100| = 1 / 100 ∧
    (createOrder64 menuStore (some alice)
        (cartOf [colaLine (roundDouble (199 / 100)) 1] (roundDouble (199 / 100))) 100 0).1 =
      orderFailure (.priceChanged "Cola") ∧
    (createOrder64 menuStore (some alice)
        (cartOf [colaLine (roundDouble (199 / 100)) 1] (roundDouble (199 / 100))) 100 0).2.orders
      = [] ∧
    |(20 : ℚ) - 1999 / 100| = 1 / 100 ∧
    |sub64 20 (roundDouble (1999 / 100))| > tolerance64 ∧
    |(10 : ℚ) - 1001 / 100| = 1 / 100 ∧
    (createOrder64 menuStore (some alice)
        (cartOf [pizzaLine (roundDouble (1001 / 100)) 1] 10) 100 0).1.success = true := by
  refine ⟨by decide!, by decide!, by decide!, by decide!, by decide!, by decide!, by decide!⟩

/-- Claim C7 (evaluation at the failing input).  Three pizzas of `menuStore` at the live
price 10 pass every per-item check and the live total is 30; the claimed total is 30.01,
which differs from it by exactly 0.01.  On numbers the subtraction gives a value above the
number `0.01`, and `createOrder` returns the total-mismatch failure and stores nothing.  One
pizza with the claimed total 10.01, again 0.01 from the live total, is accepted. -/
theorem total_check_refuses_one_cent :
    validateItems64 menuStore.products [pizzaLine 10 3] 0 = .ok 30 ∧
    |(30 : ℚ) - 3001 / 100| = 1 / 100 ∧
    (createOrder64 menuStore (some alice)
        (cartOf [pizzaLine 10 3] (roundDouble (3001 / 100))) 100 0).1 =
      orderFailure .totalMismatch ∧
    (createOrder64 menuStore (some alice)
        (cartOf [pizzaLine 10 3] (roundDouble (3001 / 100))) 100 0).2.orders = [] ∧
    validateItems64 menuStore.products [pizzaLine 10 1] 0 = .ok 10 ∧
    |(10 : ℚ) - 1001 / 100| = 1 / 100 ∧
    (createOrder64 menuStore (some alice)
        (cartOf [pizzaLine 10 1] (roundDouble (1001 / 100))) 100 0).1.success = true := by
  refine ⟨by decide!, by decide!, by decide!, by decide!, by decide!, by decide!, by decide!⟩

/-- Claim C8.  If some line item of a cart asks for more than the live stock of its existing
product, and the lines before it pass validation, `createOrder` fails with the
insufficient-stock message.  Conversely the validation loop completes on a cart, and a
`createOrder` call succeeds, only if every line item names an existing product whose live
stock is at least the quantity of the line. -/
theorem stock_check (s : Store) (u : Principal) (input : CreateOrderInput)
    (newId : ObjectId) (now : Nat)
    (pre post : List OrderItemInput) (item : OrderItemInput) (acc : ℚ) (p : Product)
    (hitems : input.items = some (pre ++ item :: post))
    (hpre : validateItems s.products pre 0 = .ok acc)
    (hp : s.products item.product = some p) (hstock : p.stock < item.quantity) :
    (createOrder s (some u) input newId now).1.message = .insufficientStock p.name p.stock ∧
    (createOrder s (some u) input newId now).1.success = false ∧
    (∀ (cart : List OrderItemInput) (t : ℚ), validateItems s.products cart 0 = .ok t →
      ∀ line ∈ cart, ∃ q, s.products line.product = some q ∧ line.quantity ≤ q.stock) ∧
    (∀ (other : CreateOrderInput) (cart : List OrderItemInput), other.items = some cart →
      (createOrder s (some u) other newId now).1.success = true →
      ∀ line ∈ cart, ∃ q, s.products line.product = some q ∧ line.quantity ≤ q.stock) := by
  have hval := validateItems_insufficient s.products pre post item acc p hpre hp hstock
  have hne : pre ++ item :: post ≠ [] := by simp
  rw [createOrder_of_validate_error s u input newId now _ _ hitems hne hval]
  have hconv : ∀ (cart : List OrderItemInput) (t : ℚ), validateItems s.products cart 0 = .ok t →
      ∀ line ∈ cart, ∃ q, s.products line.product = some q ∧ line.quantity ≤ q.stock := by
    intro cart t hv line hl
    obtain ⟨q, hq, hle, _⟩ := validateItems_ok_checked s.products cart 0 t hv line hl
    exact ⟨q, hq, hle⟩
  refine ⟨rfl, rfl, hconv, ?_⟩
  intro other cart hcart hsucc
  obtain ⟨_, items2, t, _, hi, _, hv, _, _, _⟩ :=
    createOrder_success_shape s (some u) other newId now hsucc
  rw [hcart] at hi
  cases hi
  exact hconv cart t hv

theorem stock_check_witness :
    (cartOf [pizzaLine 10 2, colaLine 2 11] 42).items =
      some ([pizzaLine 10 2] ++ colaLine 2 11 :: []) ∧
    validateItems menuStore.products [pizzaLine 10 2] 0 = .ok 20 ∧
    menuStore.products (colaLine 2 11).product =
      some { name := "Cola", price := 2, stock := 10 } ∧
    (10 : Int) < (colaLine 2 11).quantity ∧
    (createOrder menuStore (some alice) (cartOf [pizzaLine 10 2, colaLine 2 11] 42) 100 0).1.message
      = .insufficientStock "Cola" 10 ∧
    (createOrder menuStore (some alice) (cartOf [pizzaLine 10 2, colaLine 2 11] 42) 100 0).1.success
      = false ∧
    (∀ (cart : List OrderItemInput) (t : ℚ), validateItems menuStore.products cart 0 = .ok t →
      ∀ line ∈ cart, ∃ q, menuStore.products line.product = some q ∧ line.quantity ≤ q.stock) ∧
    (∀ (other : CreateOrderInput) (cart : List OrderItemInput), other.items = some cart →
      (createOrder menuStore (some alice) other 100 0).1.success = true →
      ∀ line ∈ cart, ∃ q, menuStore.products line.product = some q ∧ line.quantity ≤ q.stock) :=
  have h1 : (cartOf [pizzaLine 10 2, colaLine 2 11] 42).items =
      some ([pizzaLine 10 2] ++ colaLine 2 11 :: []) := rfl
  have h2 : validateItems menuStore.products [pizzaLine 10 2] 0 = .ok 20 := by
    norm_num [validateItems, menuStore, pizzaLine]
  have h3 : menuStore.products (colaLine 2 11).product =
      some { name := "Cola", price := 2, stock := 10 } := rfl
  have h4 : (10 : Int) < (colaLine 2 11).quantity := by decide
  ⟨h1, h2, h3, h4,
    stock_check menuStore alice (cartOf [pizzaLine 10 2, colaLine 2 11] 42) 100 0
      [pizzaLine 10 2] [] (colaLine 2 11) 20 { name := "Cola", price := 2, stock := 10 }
      h1 h2 h3 h4⟩

/-! ## Lemmas on the storage primitives -/

theorem incStock_apply (products : ObjectId → Option Product) (id : ObjectId) (delta : Int)
    (pid : ObjectId) :
    incStock products id delta pid =
      if pid = id then (products pid).map (fun p => { p with stock := p.stock + delta })
      else products pid := by
  unfold incStock
  cases h : products id with
  | none =>
    by_cases hpid : pid = id
    · subst hpid
      simp [h]
    · simp [hpid]
  | some p =>
    by_cases hpid : pid = id
    · subst hpid
      simp [h]
    · simp [hpid, Function.update]

theorem quantityOf_cons (item : OrderItem) (items : List OrderItem) (pid : ObjectId) :
    quantityOf (item :: items) pid =
      (if pid = item.product then item.quantity else 0) + quantityOf items pid := by
  unfold quantityOf
  by_cases h : pid = item.product
  · subst h
    simp [List.filter_cons]
  · have h2 : ¬ item.product = pid := fun e => h e.symm
    simp [List.filter_cons, h, h2]

theorem restoreStock_apply (products : ObjectId → Option Product) (items : List OrderItem)
    (pid : ObjectId) :
    restoreStock products items pid =
      (products pid).map (fun p => { p with stock := p.stock + quantityOf items pid }) := by
  induction items generalizing products with
  | nil =>
    cases h : products pid <;> simp [restoreStock, quantityOf, h]
  | cons item items ih =>
    have hstep : restoreStock products (item :: items) =
        restoreStock (incStock products item.product item.quantity) items := rfl
    rw [hstep, ih, incStock_apply, quantityOf_cons]
    by_cases h : pid = item.product
    · simp only [if_pos h]
      cases products pid with
      | none => rfl
      | some p => simp [add_assoc]
    · simp only [if_neg h, zero_add]

theorem findOrder_setStatus (orders : List Order) (id : ObjectId) (st : OrderStatus)
    (now : Nat) :
    findOrder (setStatus orders id st now) id =
      (findOrder orders id).map (fun o => { o with status := st, updatedAt := now }) := by
  induction orders with
  | nil => rfl
  | cons o orders ih =>
    unfold findOrder setStatus at ih ⊢
    rw [List.map_cons]
    by_cases h : o.id = id
    · have hb : (o.id == id) = true := by simp [h]
      simp only [if_pos h, List.find?_cons, hb, Option.map_some']
    · have hb : (o.id == id) = false := by simp [h]
      simp only [if_neg h, List.find?_cons, hb]
      exact ih

/-! ## Stored orders satisfy the schema -/

theorem setStatus_valid (orders : List Order) (id : ObjectId) (st : OrderStatus) (now : Nat)
    (h : ∀ o ∈ orders, orderValid o = true) :
    ∀ o ∈ setStatus orders id st now, orderValid o = true := by
  intro o ho
  unfold setStatus at ho
  obtain ⟨o0, h0, rfl⟩ := List.mem_map.mp ho
  by_cases hid : o0.id = id
  · rw [if_pos hid]
    exact h o0 h0
  · rw [if_neg hid]
    exact h o0 h0

theorem cancelOrder_orders (s : Store) (user : Option Principal) (orderId : ObjectId)
    (now : Nat) :
    (cancelOrder s user orderId now).2.orders = s.orders ∨
    (cancelOrder s user orderId now).2.orders = setStatus s.orders orderId .cancelled now := by
  unfold cancelOrder
  cases user with
  | none => exact Or.inl rfl
  | some u =>
    cases findOrder s.orders orderId with
    | none => exact Or.inl rfl
    | some o =>
      simp only
      split_ifs
      · exact Or.inl rfl
      · exact Or.inl rfl
      · exact Or.inr rfl
      · exact Or.inl rfl

theorem updateOrderStatus_orders (s : Store) (user : Option Principal) (orderId : ObjectId)
    (status : String) (now : Nat) :
    (updateOrderStatus s user orderId status now).2.orders = s.orders ∨
    ∃ st, (updateOrderStatus s user orderId status now).2.orders =
      setStatus s.orders orderId st now := by
  unfold updateOrderStatus
  cases user with
  | none => exact Or.inl rfl
  | some u =>
    simp only
    split_ifs
    · exact Or.inl rfl
    · cases parseStatus status with
      | none => exact Or.inl rfl
      | some st =>
        cases findOrder s.orders orderId with
        | none => exact Or.inl rfl
        | some o => exact Or.inr ⟨st, rfl⟩

theorem updateProductStock_orders (s : Store) (user : Option Principal) (productId : ObjectId)
    (stock : Int) :
    (updateProductStock s user productId stock).2.orders = s.orders := by
  unfold updateProductStock
  cases user with
  | none => rfl
  | some u =>
    simp only
    split_ifs
    · rfl
    · rfl
    · cases s.products productId <;> rfl

/-- Every call keeps all stored orders valid against the order schema: `createOrder` only
appends a document that passed the validation of `save`, and a status write does not touch
a validated field. -/
theorem run_ordersValid (s : Store) (c : Call) (h : OrdersValid s) : OrdersValid (c.run s) := by
  cases c with
  | createOrder user input newId now =>
    show OrdersValid (createOrder s user input newId now).2
    cases hs : (createOrder s user input newId now).1.success with
    | true =>
      obtain ⟨u, items, t, _, _, _, _, _, hvalid, heq⟩ :=
        createOrder_success_shape s user input newId now hs
      rw [heq]
      intro o ho
      rcases List.mem_append.mp ho with ho | ho
      · exact h o ho
      · rw [List.mem_singleton.mp ho]
        exact hvalid
    | false =>
      obtain ⟨m, heq⟩ := createOrder_failure_shape s user input newId now hs
      rw [heq]
      exact h
  | cancelOrder user orderId now =>
    show OrdersValid (cancelOrder s user orderId now).2
    intro o ho
    rcases cancelOrder_orders s user orderId now with e | e
    · rw [e] at ho
      exact h o ho
    · rw [e] at ho
      exact setStatus_valid s.orders orderId _ now h o ho
  | updateOrderStatus user orderId status now =>
    show OrdersValid (updateOrderStatus s user orderId status now).2
    intro o ho
    rcases updateOrderStatus_orders s user orderId status now with e | ⟨st, e⟩
    · rw [e] at ho
      exact h o ho
    · rw [e] at ho
      exact setStatus_valid s.orders orderId st now h o ho
  | updateProductStock user productId stock =>
    show OrdersValid (updateProductStock s user productId stock).2
    intro o ho
    rw [updateProductStock_orders] at ho
    exact h o ho

/-- In every store reached by a sequence of calls from a store whose orders are valid, for
example one without orders, all stored orders are valid. -/
theorem runCalls_ordersValid (s : Store) (calls : List Call) (h : OrdersValid s) :
    OrdersValid (runCalls s calls) := by
  induction calls generalizing s with
  | nil => exact h
  | cons c calls ih => exact ih (c.run s) (run_ordersValid s c h)

/-- Claim C9.  For every pending stored order (a document satisfying the order schema) and
every principal that is an administrator or the owner of the order, `cancelOrder` succeeds,
the stored order afterwards has status `cancelled` (and the new update time, nothing else
changed), and every product keeps all its fields except that its stock has grown by exactly
the sum of the quantities of the line items of the order that reference it, which is zero
for a product no line refers to; no product appears or disappears. -/
theorem cancelOrder_pending_restores_stock (s : Store) (u : Principal) (orderId : ObjectId)
    (now : Nat) (o : Order)
    (hfind : findOrder s.orders orderId = some o) (hpend : o.status = .pending)
    (hauth : u.role = "admin" ∨ o.user = u.id) (hvalid : orderValid o = true) :
    (cancelOrder s (some u) orderId now).1.success = true ∧
    (cancelOrder s (some u) orderId now).1.order =
      some { o with status := .cancelled, updatedAt := now } ∧
    findOrder (cancelOrder s (some u) orderId now).2.orders orderId =
      some { o with status := .cancelled, updatedAt := now } ∧
    (∀ pid, (cancelOrder s (some u) orderId now).2.products pid =
      (s.products pid).map (fun p => { p with stock := p.stock + quantityOf o.items pid })) ∧
    (∀ pid, quantityOf o.items pid = 0 →
      (cancelOrder s (some u) orderId now).2.products pid = s.products pid) := by
  have hguard : ¬ (u.role ≠ "admin" ∧ o.user ≠ u.id) := by
    rintro ⟨h1, h2⟩
    rcases hauth with h | h
    · exact h1 h
    · exact h2 h
  have hst : ¬ (o.status ≠ .pending) := fun h => h hpend
  have hv : orderValid { o with status := .cancelled, updatedAt := now } = true := hvalid
  have heq : cancelOrder s (some u) orderId now =
      ({ success := true, message := .orderCancelled,
         order := some { o with status := .cancelled, updatedAt := now } },
       { products := restoreStock s.products o.items,
         orders := setStatus s.orders orderId .cancelled now }) := by
    unfold cancelOrder
    simp only [hfind, if_neg hguard, if_neg hst, if_pos hv]
  rw [heq]
  refine ⟨rfl, rfl, ?_, ?_, ?_⟩
  · show findOrder (setStatus s.orders orderId .cancelled now) orderId = _
    rw [findOrder_setStatus, hfind]
    rfl
  · intro pid
    exact restoreStock_apply s.products o.items pid
  · intro pid hzero
    show restoreStock s.products o.items pid = s.products pid
    rw [restoreStock_apply, hzero]
    cases s.products pid with
    | none => rfl
    | some p => simp

theorem cancelOrder_pending_restores_stock_witness :
    findOrder orderedStore.orders 100 = some aliceOrder ∧
    aliceOrder.status = .pending ∧
    (alice.role = "admin" ∨ aliceOrder.user = alice.id) ∧
    orderValid aliceOrder = true ∧
    (cancelOrder orderedStore (some alice) 100 5).1.success = true ∧
    (cancelOrder orderedStore (some alice) 100 5).1.order =
      some { aliceOrder with status := .cancelled, updatedAt := 5 } ∧
    findOrder (cancelOrder orderedStore (some alice) 100 5).2.orders 100 =
      some { aliceOrder with status := .cancelled, updatedAt := 5 } ∧
    (∀ pid, (cancelOrder orderedStore (some alice) 100 5).2.products pid =
      (orderedStore.products pid).map
        (fun p => { p with stock := p.stock + quantityOf aliceOrder.items pid })) ∧
    (∀ pid, quantityOf aliceOrder.items pid = 0 →
      (cancelOrder orderedStore (some alice) 100 5).2.products pid =
        orderedStore.products pid) :=
  ⟨rfl, rfl, Or.inr rfl, by decide!,
    cancelOrder_pending_restores_stock orderedStore alice 100 5 aliceOrder rfl rfl
      (Or.inr rfl) (by decide!)⟩

/-- The example of the specification: cancelling the pending order with items
`(P1, 2), (P2, 1)` raises the stock of `P1` from 1 to 3 and of `P2` from 9 to 10, and the
stored order becomes cancelled. -/
theorem cancelOrder_example :
    ((cancelOrder orderedStore (some alice) 100 5).2.products 1).map (fun p => p.stock)
      = some 3 ∧
    ((cancelOrder orderedStore (some alice) 100 5).2.products 2).map (fun p => p.stock)
      = some 10 ∧
    (cancelOrder orderedStore (some alice) 100 5).2.orders.map (fun o => o.status)
      = [OrderStatus.cancelled] := by
  refine ⟨by decide!, by decide!, by decide!⟩

/-- Claim C10.  `cancelOrder` on a stored order whose status is not `pending` reports
failure, returns no order and returns the store exactly as it was (every product and every
order, the addressed one included), whoever calls; for a caller that passes the preceding
authorization check (an administrator or the owner of the order) the failure is the
only-pending-orders-can-be-cancelled message. -/
theorem cancelOrder_not_pending (s : Store) (user : Option Principal) (orderId : ObjectId)
    (now : Nat) (o : Order)
    (hfind : findOrder s.orders orderId = some o) (hstatus : o.status ≠ .pending) :
    (cancelOrder s user orderId now).2 = s ∧
    (cancelOrder s user orderId now).1.success = false ∧
    (cancelOrder s user orderId now).1.order = none ∧
    (∀ u, user = some u → (u.role = "admin" ∨ o.user = u.id) →
      (cancelOrder s user orderId now).1.message = .onlyPendingCancellable) := by
  cases user with
  | none =>
    refine ⟨rfl, rfl, rfl, ?_⟩
    intro u hu
    cases hu
  | some u =>
    by_cases hguard : u.role ≠ "admin" ∧ o.user ≠ u.id
    · have heq : cancelOrder s (some u) orderId now = (orderFailure .notAuthorized, s) := by
        unfold cancelOrder
        simp only [hfind, if_pos hguard]
      rw [heq]
      refine ⟨rfl, rfl, rfl, ?_⟩
      intro v hv hauth
      cases hv
      rcases hauth with h | h
      · exact absurd h hguard.1
      · exact absurd h hguard.2
    · have heq : cancelOrder s (some u) orderId now =
          (orderFailure .onlyPendingCancellable, s) := by
        unfold cancelOrder
        simp only [hfind, if_neg hguard, if_pos hstatus]
      rw [heq]
      exact ⟨rfl, rfl, rfl, fun _ _ _ => rfl⟩

theorem cancelOrder_not_pending_witness :
    findOrder (cancelOrder orderedStore (some alice) 100 5).2.orders 100 =
      some { aliceOrder with status := .cancelled, updatedAt := 5 } ∧
    ({ aliceOrder with status := .cancelled, updatedAt := 5 } : Order).status ≠ .pending ∧
    (cancelOrder (cancelOrder orderedStore (some alice) 100 5).2 (some alice) 100 9).2 =
      (cancelOrder orderedStore (some alice) 100 5).2 ∧
    (cancelOrder (cancelOrder orderedStore (some alice) 100 5).2 (some alice) 100 9).1.success
      = false ∧
    (cancelOrder (cancelOrder orderedStore (some alice) 100 5).2 (some alice) 100 9).1.order
      = none ∧
    (∀ u, some alice = some u →
      (u.role = "admin" ∨
        ({ aliceOrder with status := .cancelled, updatedAt := 5 } : Order).user = u.id) →
      (cancelOrder (cancelOrder orderedStore (some alice) 100 5).2 (some alice) 100 9).1.message
        = .onlyPendingCancellable) :=
  ⟨by decide!, by decide,
    cancelOrder_not_pending (cancelOrder orderedStore (some alice) 100 5).2 (some alice) 100 9
      { aliceOrder with status := .cancelled, updatedAt := 5 } (by decide!) (by decide)⟩

/-- A second cancel of the order cancelled in `cancelOrder_example`, by the same owner,
is refused with the only-pending message and moves no stock. -/
theorem second_cancel_example :
    (cancelOrder (cancelOrder orderedStore (some alice) 100 5).2 (some alice) 100 9).1 =
      orderFailure .onlyPendingCancellable ∧
    ((cancelOrder (cancelOrder orderedStore (some alice) 100 5).2 (some alice) 100 9).2.products
      1).map (fun p => p.stock) = some 3 ∧
    ((cancelOrder (cancelOrder orderedStore (some alice) 100 5).2 (some alice) 100 9).2.products
      2).map (fun p => p.stock) = some 10 := by
  refine ⟨by decide!, by decide!, by decide!⟩

/-- The price check at the boundary, evaluated: a claimed unit price one cent above the live
price of 10 is accepted and the order is stored with the live total 30; a claimed price two
cents above is refused with the price-changed message. -/
theorem price_boundary_example :
    (createOrder pizzaStore (some alice) (cartOf [pizzaLine (10 + 1 / 100) 3] 30) 100 0).1.success
      = true ∧
    (createOrder pizzaStore (some alice) (cartOf [pizzaLine (10 + 1 / 100) 3] 30) 100 0).2.orders.map
      (fun o => o.total) = [30] ∧
    (createOrder pizzaStore (some alice) (cartOf [pizzaLine (10 + 2 / 100) 3] 30) 100 0).1 =
      orderFailure (.priceChanged "Pizza") := by
  refine ⟨by decide!, by decide!, by decide!⟩

/-! ## Lemmas on the status transitions -/

/-- The outcome of `cancelOrder` on a stored order that is not pending: the authorization
failure for a caller that is neither administrator nor owner, the only-pending failure
otherwise; the store is returned as it was. -/
theorem cancelOrder_of_not_pending (s : Store) (u : Principal) (orderId : ObjectId)
    (now : Nat) (o : Order)
    (hfind : findOrder s.orders orderId = some o) (hstatus : o.status ≠ .pending) :
    cancelOrder s (some u) orderId now =
      (orderFailure (if u.role ≠ "admin" ∧ o.user ≠ u.id then .notAuthorized
        else .onlyPendingCancellable), s) := by
  unfold cancelOrder
  by_cases hguard : u.role ≠ "admin" ∧ o.user ≠ u.id
  · simp only [hfind, if_pos hguard]
  · simp only [hfind, if_neg hguard, if_pos hstatus]

/-- The outcome of `updateOrderStatus` for a caller that is not an administrator. -/
theorem updateOrderStatus_of_not_admin (s : Store) (u : Principal) (orderId : ObjectId)
    (status : String) (now : Nat) (h : u.role ≠ "admin") :
    updateOrderStatus s (some u) orderId status now = (orderFailure .notAuthorized, s) := by
  unfold updateOrderStatus
  simp only [if_pos h]

/-- The outcome of `updateOrderStatus` for an administrator, an accepted status string and
an existing order: the status and the update time are written, whatever the current status,
and nothing else is touched. -/
theorem updateOrderStatus_of_admin (s : Store) (u : Principal) (orderId : ObjectId)
    (status : String) (now : Nat) (st : OrderStatus) (o : Order)
    (hadmin : u.role = "admin") (hst : parseStatus status = some st)
    (hfind : findOrder s.orders orderId = some o) :
    updateOrderStatus s (some u) orderId status now =
      ({ success := true, message := .statusUpdated st,
         order := some { o with status := st, updatedAt := now } },
       { products := s.products, orders := setStatus s.orders orderId st now }) := by
  have hna : ¬ (u.role ≠ "admin") := fun h => h hadmin
  unfold updateOrderStatus
  simp only [if_neg hna, hst, hfind]

/-- The outcome of `updateOrderStatus` for an administrator and a status string outside the
accepted list. -/
theorem updateOrderStatus_of_invalid (s : Store) (u : Principal) (orderId : ObjectId)
    (status : String) (now : Nat)
    (hadmin : u.role = "admin") (hst : parseStatus status = none) :
    updateOrderStatus s (some u) orderId status now = (orderFailure .invalidStatus, s) := by
  have hna : ¬ (u.role ≠ "admin") := fun h => h hadmin
  unfold updateOrderStatus
  simp only [if_neg hna, hst]

theorem parseStatus_eq_none (status : String)
    (h : status ≠ "pending" ∧ status ≠ "completed" ∧ status ≠ "cancelled") :
    parseStatus status = none := by
  unfold parseStatus
  rw [if_neg h.1, if_neg h.2.1, if_neg h.2.2]

/-- Claim C11 (as stated, refuted).  The order of alice is cancelled in `cancelledStore`; an
administrator calling `updateOrderStatus` with `completed` on it succeeds, and the stored
status becomes `completed`. -/
theorem admin_completes_cancelled_order :
    (findOrder cancelledStore.orders 100).map (fun o => o.status) = some OrderStatus.cancelled ∧
    (updateOrderStatus cancelledStore (some adminUser) 100 "completed" 9).1.success = true ∧
    (findOrder (updateOrderStatus cancelledStore (some adminUser) 100 "completed" 9).2.orders
      100).map (fun o => o.status) = some OrderStatus.completed := by
  refine ⟨by decide!, by decide!, by decide!⟩

/-- Claim C11 (amended).  For every stored order whose status is `completed` or
`cancelled`: `cancelOrder` by any caller fails and returns the store unchanged, with the
only-pending message when the caller is an administrator or the owner; `updateOrderStatus`
by a caller that is not an administrator fails as not authorized and returns the store
unchanged.  `updateOrderStatus` by an administrator is not bound by the current status: with
an accepted status string it succeeds and writes that status. -/
theorem terminal_status_final_except_admin_update (s : Store) (orderId : ObjectId)
    (now : Nat) (o : Order)
    (hfind : findOrder s.orders orderId = some o)
    (hterm : o.status = .completed ∨ o.status = .cancelled) :
    (∀ user, (cancelOrder s user orderId now).2 = s ∧
      (cancelOrder s user orderId now).1.success = false) ∧
    (∀ u : Principal, (u.role = "admin" ∨ o.user = u.id) →
      (cancelOrder s (some u) orderId now).1.message = .onlyPendingCancellable) ∧
    (∀ (u : Principal) (status : String), u.role ≠ "admin" →
      updateOrderStatus s (some u) orderId status now = (orderFailure .notAuthorized, s)) ∧
    (∀ (u : Principal) (status : String) (st : OrderStatus), u.role = "admin" →
      parseStatus status = some st →
      (updateOrderStatus s (some u) orderId status now).1.success = true ∧
      findOrder (updateOrderStatus s (some u) orderId status now).2.orders orderId =
        some { o with status := st, updatedAt := now }) := by
  have hstatus : o.status ≠ .pending := by
    rcases hterm with h | h <;> rw [h] <;> decide
  refine ⟨?_, ?_, ?_, ?_⟩
  · intro user
    cases user with
    | none => exact ⟨rfl, rfl⟩
    | some u =>
      rw [cancelOrder_of_not_pending s u orderId now o hfind hstatus]
      exact ⟨rfl, rfl⟩
  · intro u hauth
    have hguard : ¬ (u.role ≠ "admin" ∧ o.user ≠ u.id) := by
      rintro ⟨h1, h2⟩
      rcases hauth with h | h
      · exact h1 h
      · exact h2 h
    rw [cancelOrder_of_not_pending s u orderId now o hfind hstatus, if_neg hguard]
    rfl
  · intro u status h
    exact updateOrderStatus_of_not_admin s u orderId status now h
  · intro u status st hadmin hst
    rw [updateOrderStatus_of_admin s u orderId status now st o hadmin hst hfind]
    refine ⟨rfl, ?_⟩
    show findOrder (setStatus s.orders orderId st now) orderId = _
    rw [findOrder_setStatus, hfind]
    rfl

theorem terminal_status_final_except_admin_update_witness :
    findOrder cancelledStore.orders 100 = some aliceCancelled ∧
    (aliceCancelled.status = .completed ∨ aliceCancelled.status = .cancelled) ∧
    (∀ user, (cancelOrder cancelledStore user 100 9).2 = cancelledStore ∧
      (cancelOrder cancelledStore user 100 9).1.success = false) ∧
    (∀ u : Principal, (u.role = "admin" ∨ aliceCancelled.user = u.id) →
      (cancelOrder cancelledStore (some u) 100 9).1.message = .onlyPendingCancellable) ∧
    (∀ (u : Principal) (status : String), u.role ≠ "admin" →
      updateOrderStatus cancelledStore (some u) 100 status 9 =
        (orderFailure .notAuthorized, cancelledStore)) ∧
    (∀ (u : Principal) (status : String) (st : OrderStatus), u.role = "admin" →
      parseStatus status = some st →
      (updateOrderStatus cancelledStore (some u) 100 status 9).1.success = true ∧
      findOrder (updateOrderStatus cancelledStore (some u) 100 status 9).2.orders 100 =
        some { aliceCancelled with status := st, updatedAt := 9 }) :=
  ⟨by decide!, Or.inr rfl,
    terminal_status_final_except_admin_update cancelledStore 100 9 aliceCancelled
      (by decide!) (Or.inr rfl)⟩

/-- Claim C12 (as stated, refuted).  An administrator calling `updateOrderStatus` with the
status `pending` on the cancelled order of alice is not rejected: the call succeeds and the
stored status becomes `pending` again. -/
theorem admin_sets_pending :
    (findOrder cancelledStore.orders 100).map (fun o => o.status) = some OrderStatus.cancelled ∧
    (updateOrderStatus cancelledStore (some adminUser) 100 "pending" 9).1.success = true ∧
    (updateOrderStatus cancelledStore (some adminUser) 100 "pending" 9).1.message =
      .statusUpdated .pending ∧
    (findOrder (updateOrderStatus cancelledStore (some adminUser) 100 "pending" 9).2.orders
      100).map (fun o => o.status) = some OrderStatus.pending := by
  refine ⟨by decide!, by decide!, by decide!, by decide!⟩

/-- Claim C12 (amended).  A call of `updateOrderStatus` whose requested status is not one of
`pending`, `completed` or `cancelled` fails, returns no order and returns the store
unchanged, for every order identifier and every caller; for an administrator the failure is
the invalid-status message. -/
theorem invalid_status_rejected (s : Store) (user : Option Principal) (orderId : ObjectId)
    (status : String) (now : Nat)
    (h : status ≠ "pending" ∧ status ≠ "completed" ∧ status ≠ "cancelled") :
    (updateOrderStatus s user orderId status now).2 = s ∧
    (updateOrderStatus s user orderId status now).1.success = false ∧
    (updateOrderStatus s user orderId status now).1.order = none ∧
    (∀ u, user = some u → u.role = "admin" →
      (updateOrderStatus s user orderId status now).1.message = .invalidStatus) := by
  have hst := parseStatus_eq_none status h
  cases user with
  | none =>
    refine ⟨rfl, rfl, rfl, ?_⟩
    intro u hu
    cases hu
  | some u =>
    by_cases hadmin : u.role = "admin"
    · rw [updateOrderStatus_of_invalid s u orderId status now hadmin hst]
      exact ⟨rfl, rfl, rfl, fun _ _ _ => rfl⟩
    · rw [updateOrderStatus_of_not_admin s u orderId status now hadmin]
      refine ⟨rfl, rfl, rfl, ?_⟩
      intro v hv hv2
      cases hv
      exact absurd hv2 hadmin

theorem invalid_status_rejected_witness :
    (("shipped" : String) ≠ "pending" ∧ ("shipped" : String) ≠ "completed" ∧
      ("shipped" : String) ≠ "cancelled") ∧
    (updateOrderStatus orderedStore (some adminUser) 100 "shipped" 9).2 = orderedStore ∧
    (updateOrderStatus orderedStore (some adminUser) 100 "shipped" 9).1.success = false ∧
    (updateOrderStatus orderedStore (some adminUser) 100 "shipped" 9).1.order = none ∧
    (∀ u, some adminUser = some u → u.role = "admin" →
      (updateOrderStatus orderedStore (some adminUser) 100 "shipped" 9).1.message =
        .invalidStatus) :=
  ⟨by decide, invalid_status_rejected orderedStore (some adminUser) 100 "shipped" 9 (by decide)⟩

/-- Claim C13 (evaluation at the failing input).  In `orderedStore` the pending order of
alice holds 2 pizzas and 1 cola, and the stocks are 1 and 9.  An administrator moving it to
`cancelled` through `updateOrderStatus` succeeds and the stored status becomes `cancelled`,
but the stocks stay at 1 and 9; `cancelOrder` on the same store raises them to 3 and 10. -/
theorem admin_cancel_keeps_stock :
    (updateOrderStatus orderedStore (some adminUser) 100 "cancelled" 5).1.success = true ∧
    (findOrder (updateOrderStatus orderedStore (some adminUser) 100 "cancelled" 5).2.orders
      100).map (fun o => o.status) = some OrderStatus.cancelled ∧
    ((updateOrderStatus orderedStore (some adminUser) 100 "cancelled" 5).2.products 1).map
      (fun p => p.stock) = some 1 ∧
    ((updateOrderStatus orderedStore (some adminUser) 100 "cancelled" 5).2.products 2).map
      (fun p => p.stock) = some 9 ∧
    ((cancelOrder orderedStore (some adminUser) 100 5).2.products 1).map
      (fun p => p.stock) = some 3 ∧
    ((cancelOrder orderedStore (some adminUser) 100 5).2.products 2).map
      (fun p => p.stock) = some 10 := by
  refine ⟨by decide!, by decide!, by decide!, by decide!, by decide!, by decide!⟩

/-- No call of `updateOrderStatus` writes to the product collection. -/
theorem updateOrderStatus_products (s : Store) (user : Option Principal) (orderId : ObjectId)
    (status : String) (now : Nat) :
    (updateOrderStatus s user orderId status now).2.products = s.products := by
  unfold updateOrderStatus
  cases user with
  | none => rfl
  | some u =>
    simp only
    split_ifs
    · rfl
    · cases parseStatus status with
      | none => rfl
      | some st =>
        cases findOrder s.orders orderId <;> rfl

/-- The outcome of `cancelOrder` for a caller that is neither administrator nor owner of the
existing order. -/
theorem cancelOrder_of_not_authorized (s : Store) (u : Principal) (orderId : ObjectId)
    (now : Nat) (o : Order)
    (hfind : findOrder s.orders orderId = some o)
    (hguard : u.role ≠ "admin" ∧ o.user ≠ u.id) :
    cancelOrder s (some u) orderId now = (orderFailure .notAuthorized, s) := by
  unfold cancelOrder
  simp only [hfind, if_pos hguard]

/-- The message of `cancelOrder` for an administrator or the owner of the existing order is
never the authorization failure. -/
theorem cancelOrder_of_authorized (s : Store) (u : Principal) (orderId : ObjectId)
    (now : Nat) (o : Order)
    (hfind : findOrder s.orders orderId = some o)
    (hauth : u.role = "admin" ∨ o.user = u.id) :
    (cancelOrder s (some u) orderId now).1.message ≠ .notAuthorized := by
  have hguard : ¬ (u.role ≠ "admin" ∧ o.user ≠ u.id) := by
    rintro ⟨h1, h2⟩
    rcases hauth with h | h
    · exact h1 h
    · exact h2 h
  unfold cancelOrder
  simp only [hfind, if_neg hguard]
  split_ifs <;> simp [orderFailure]

/-- Claim C14.  On an existing order, `cancelOrder` answers with the not-authorized failure
exactly when the caller is neither an administrator nor the owner of the order, and
`updateOrderStatus` (with any requested status) exactly when the caller is not an
administrator, the owner included; a refused call returns no order and returns the store
unchanged, so neither the order nor any stock is modified. -/
theorem transition_authorization (s : Store) (u : Principal) (orderId : ObjectId)
    (status : String) (now : Nat) (o : Order)
    (hfind : findOrder s.orders orderId = some o) :
    ((cancelOrder s (some u) orderId now).1.message = .notAuthorized ↔
      (u.role ≠ "admin" ∧ o.user ≠ u.id)) ∧
    ((u.role ≠ "admin" ∧ o.user ≠ u.id) →
      cancelOrder s (some u) orderId now = (orderFailure .notAuthorized, s)) ∧
    ((updateOrderStatus s (some u) orderId status now).1.message = .notAuthorized ↔
      u.role ≠ "admin") ∧
    (u.role ≠ "admin" →
      updateOrderStatus s (some u) orderId status now = (orderFailure .notAuthorized, s)) := by
  refine ⟨⟨?_, ?_⟩, ?_, ⟨?_, ?_⟩, ?_⟩
  · intro hmsg
    by_contra hnot
    have hauth : u.role = "admin" ∨ o.user = u.id := by
      by_cases h1 : u.role = "admin"
      · exact Or.inl h1
      · by_cases h2 : o.user = u.id
        · exact Or.inr h2
        · exact absurd ⟨h1, h2⟩ hnot
    exact cancelOrder_of_authorized s u orderId now o hfind hauth hmsg
  · intro hguard
    rw [cancelOrder_of_not_authorized s u orderId now o hfind hguard]
    rfl
  · exact cancelOrder_of_not_authorized s u orderId now o hfind
  · intro hmsg hadmin
    cases hst : parseStatus status with
    | none =>
      rw [updateOrderStatus_of_invalid s u orderId status now hadmin hst] at hmsg
      simp [orderFailure] at hmsg
    | some st =>
      rw [updateOrderStatus_of_admin s u orderId status now st o hadmin hst hfind] at hmsg
      simp at hmsg
  · intro hna
    rw [updateOrderStatus_of_not_admin s u orderId status now hna]
    rfl
  · exact updateOrderStatus_of_not_admin s u orderId status now

theorem transition_authorization_witness :
    findOrder orderedStore.orders 100 = some aliceOrder ∧
    ((cancelOrder orderedStore (some bob) 100 5).1.message = .notAuthorized ↔
      (bob.role ≠ "admin" ∧ aliceOrder.user ≠ bob.id)) ∧
    ((bob.role ≠ "admin" ∧ aliceOrder.user ≠ bob.id) →
      cancelOrder orderedStore (some bob) 100 5 = (orderFailure .notAuthorized, orderedStore)) ∧
    ((updateOrderStatus orderedStore (some bob) 100 "completed" 5).1.message = .notAuthorized ↔
      bob.role ≠ "admin") ∧
    (bob.role ≠ "admin" →
      updateOrderStatus orderedStore (some bob) 100 "completed" 5 =
        (orderFailure .notAuthorized, orderedStore)) :=
  ⟨rfl, transition_authorization orderedStore bob 100 "completed" 5 aliceOrder rfl⟩

/-- The refusals of claim C14, evaluated: bob can neither cancel nor update the pending
order of alice, and alice herself cannot call `updateOrderStatus` on it. -/
theorem authorization_example :
    (cancelOrder orderedStore (some bob) 100 5).1 = orderFailure .notAuthorized ∧
    (updateOrderStatus orderedStore (some bob) 100 "cancelled" 5).1 =
      orderFailure .notAuthorized ∧
    (updateOrderStatus orderedStore (some alice) 100 "cancelled" 5).1 =
      orderFailure .notAuthorized ∧
    (cancelOrder orderedStore (some alice) 100 5).1.success = true := by
  refine ⟨by decide!, by decide!, by decide!, by decide!⟩

/-- Claim C15.  For every stored order (whatever its status, a pending one in particular),
an administrator calling `updateOrderStatus` with `completed` succeeds; the product
collection after the call is the one before it, and the stored order afterwards is the
order before with status `completed` and the new update time: line items, total and owner
are unchanged. -/
theorem complete_performs_no_inventory_action (s : Store) (u : Principal)
    (orderId : ObjectId) (now : Nat) (o : Order)
    (hfind : findOrder s.orders orderId = some o) (hadmin : u.role = "admin") :
    (updateOrderStatus s (some u) orderId "completed" now).1.success = true ∧
    (updateOrderStatus s (some u) orderId "completed" now).2.products = s.products ∧
    findOrder (updateOrderStatus s (some u) orderId "completed" now).2.orders orderId =
      some { o with status := .completed, updatedAt := now } ∧
    (updateOrderStatus s (some u) orderId "completed" now).1.order =
      some { o with status := .completed, updatedAt := now } ∧
    (updateOrderStatus s (some u) orderId "completed" now).2.orders.map
        (fun x => (x.id, x.user, x.items, x.total)) =
      s.orders.map (fun x => (x.id, x.user, x.items, x.total)) := by
  have hst : parseStatus "completed" = some OrderStatus.completed := by decide
  rw [updateOrderStatus_of_admin s u orderId "completed" now _ o hadmin hst hfind]
  refine ⟨rfl, rfl, ?_, rfl, ?_⟩
  · show findOrder (setStatus s.orders orderId .completed now) orderId = _
    rw [findOrder_setStatus, hfind]
    rfl
  · show (setStatus s.orders orderId .completed now).map _ = _
    unfold setStatus
    rw [List.map_map]
    apply List.map_congr_left
    intro x _
    simp only [Function.comp]
    split_ifs <;> rfl

theorem complete_performs_no_inventory_action_witness :
    findOrder orderedStore.orders 100 = some aliceOrder ∧
    adminUser.role = "admin" ∧
    (updateOrderStatus orderedStore (some adminUser) 100 "completed" 5).1.success = true ∧
    (updateOrderStatus orderedStore (some adminUser) 100 "completed" 5).2.products =
      orderedStore.products ∧
    findOrder (updateOrderStatus orderedStore (some adminUser) 100 "completed" 5).2.orders 100 =
      some { aliceOrder with status := .completed, updatedAt := 5 } ∧
    (updateOrderStatus orderedStore (some adminUser) 100 "completed" 5).1.order =
      some { aliceOrder with status := .completed, updatedAt := 5 } ∧
    (updateOrderStatus orderedStore (some adminUser) 100 "completed" 5).2.orders.map
        (fun x => (x.id, x.user, x.items, x.total)) =
      orderedStore.orders.map (fun x => (x.id, x.user, x.items, x.total)) :=
  ⟨rfl, rfl,
    complete_performs_no_inventory_action orderedStore adminUser 100 5 aliceOrder rfl rfl⟩

/-- Claim C16.  For an identifier that matches no stored order, `cancelOrder` by any
authenticated principal, and `updateOrderStatus` by an administrator with an accepted status
string, answer with the order-not-found failure and return the store unchanged. -/
theorem transition_not_found (s : Store) (u : Principal) (orderId : ObjectId) (now : Nat)
    (hnone : findOrder s.orders orderId = none) :
    cancelOrder s (some u) orderId now = (orderFailure .orderNotFound, s) ∧
    (∀ (status : String) (st : OrderStatus), u.role = "admin" →
      parseStatus status = some st →
      updateOrderStatus s (some u) orderId status now = (orderFailure .orderNotFound, s)) := by
  constructor
  · unfold cancelOrder
    simp only [hnone]
  · intro status st hadmin hst
    have hna : ¬ (u.role ≠ "admin") := fun h => h hadmin
    unfold updateOrderStatus
    simp only [if_neg hna, hst, hnone]

theorem transition_not_found_witness :
    findOrder orderedStore.orders 404 = none ∧
    cancelOrder orderedStore (some adminUser) 404 5 =
      (orderFailure .orderNotFound, orderedStore) ∧
    (∀ (status : String) (st : OrderStatus), adminUser.role = "admin" →
      parseStatus status = some st →
      updateOrderStatus orderedStore (some adminUser) 404 status 5 =
        (orderFailure .orderNotFound, orderedStore)) :=
  ⟨by decide!, transition_not_found orderedStore adminUser 404 5 (by decide!)⟩

/-! ## The step semantics agrees with the resolver -/

theorem runSteps_done (r : Request) (n : Nat) (response : OrderResponse) (s : Store) :
    runSteps r n (.done response, s) = (.done response, s) := by
  induction n with
  | zero => rfl
  | succ n ih =>
    show runSteps r n (createOrderStep r s (.done response)) = _
    exact ih

theorem runSteps_add (r : Request) (m n : Nat) (x : Phase × Store) :
    runSteps r (m + n) x = runSteps r n (runSteps r m x) := by
  induction m generalizing x with
  | zero => simp [runSteps]
  | succ m ih =>
    rw [Nat.succ_add]
    show runSteps r (m + n) (createOrderStep r x.2 x.1) = _
    rw [ih]
    rfl

/-- Running the validation loop step by step on an unchanging store gives what
`validateItems` computes, followed by the step that leaves the loop. -/
theorem runSteps_validating (r : Request) (s : Store) (pending : List OrderItemInput)
    (t : ℚ) :
    runSteps r (pending.length + 1) (.validating pending t, s) =
      match validateItems s.products pending t with
      | .error m => (.done (orderFailure m), s)
      | .ok total => createOrderStep r s (.validating [] total) := by
  induction pending generalizing t with
  | nil => rfl
  | cons item rest ih =>
    show runSteps r (rest.length + 1) (createOrderStep r s (.validating (item :: rest) t)) = _
    simp only [createOrderStep, validateItems]
    cases hp : s.products item.product with
    | none => exact runSteps_done r _ _ s
    | some p =>
      simp only
      by_cases h1 : p.stock < item.quantity
      · simp only [if_pos h1]
        exact runSteps_done r _ _ s
      · simp only [if_neg h1]
        by_cases h2 : |p.price - item.price| > 1 / 100
        · simp only [if_pos h2]
          exact runSteps_done r _ _ s
        · simp only [if_neg h2]
          exact ih _

/-- Running the stock loop step by step applies the decrements of `decrementStock` and
returns the success response. -/
theorem runSteps_updating (r : Request) (order : Order) (pending : List OrderItemInput)
    (s : Store) :
    runSteps r (pending.length + 1) (.updating order pending, s) =
      (.done { success := true, message := .orderCreated, order := some order },
       { products := decrementStock s.products pending, orders := s.orders }) := by
  induction pending generalizing s with
  | nil => rfl
  | cons item rest ih =>
    show runSteps r (rest.length + 1) (createOrderStep r s (.updating order (item :: rest))) = _
    simp only [createOrderStep]
    rw [ih]
    rfl

/-- A request that runs alone returns, after at most two steps per line item and four more,
with the response of `createOrder`, and leaves the store of `createOrder`. -/
theorem runSteps_eq_createOrder (r : Request) (s : Store) :
    runSteps r (2 * (r.input.items.getD []).length + 4) (.start, s) =
      (.done (createOrder s (some r.user) r.input r.newId r.now).1,
       (createOrder s (some r.user) r.input r.newId r.now).2) := by
  have hfuel : 2 * (r.input.items.getD []).length + 4 =
      ((r.input.items.getD []).length + 1 + ((r.input.items.getD []).length + 2)) + 1 := by
    omega
  rw [hfuel]
  show runSteps r _ (createOrderStep r s .start) = _
  unfold createOrder
  simp only [createOrderStep]
  cases hi : r.input.items with
  | none => exact runSteps_done r _ _ s
  | some items =>
    simp only [Option.getD_some]
    by_cases hlen : items.length = 0
    · simp only [if_pos hlen]
      exact runSteps_done r _ _ s
    · simp only [if_neg hlen]
      rw [runSteps_add, runSteps_validating]
      cases hv : validateItems s.products items 0 with
      | error m => exact runSteps_done r _ _ s
      | ok total =>
        simp only [createOrderStep, hi, Option.getD_some]
        by_cases htot : |total - r.input.total| > 1 / 100
        · simp only [if_pos htot]
          exact runSteps_done r _ _ s
        · simp only [if_neg htot]
          by_cases hvalid : orderValid (newOrder r.newId r.now r.user r.input items total) = true
          · simp only [if_pos hvalid]
            show runSteps r (items.length + 1) (createOrderStep r s (.saving _)) = _
            simp only [createOrderStep, hi, Option.getD_some]
            rw [runSteps_updating]
          · simp only [if_neg hvalid]
            exact runSteps_done r _ _ s

/-- Claim C17 (evaluation at the failing input).  One pizza is left.  Alice and bob each ask
for one.  When both requests have read the stock before either writes (`raceSchedule`), both
pass the stock check, both orders are stored, both decrements are applied and the stock ends
at -1.  Only when one request returns before the other starts (`serialSchedule`) does
exactly one succeed, the other failing with the insufficient-stock message and the stock
ending at 0. -/
theorem last_unit_race :
    (lastUnitStore.products 1).map (fun p => p.stock) = some 1 ∧
    (interleave aliceRequest bobRequest raceSchedule (.start, .start, lastUnitStore)).1.succeeded
      = true ∧
    (interleave aliceRequest bobRequest raceSchedule (.start, .start, lastUnitStore)).2.1.succeeded
      = true ∧
    (interleave aliceRequest bobRequest raceSchedule
      (.start, .start, lastUnitStore)).2.2.orders.length = 2 ∧
    ((interleave aliceRequest bobRequest raceSchedule
      (.start, .start, lastUnitStore)).2.2.products 1).map (fun p => p.stock) = some (-1) ∧
    (interleave aliceRequest bobRequest serialSchedule (.start, .start, lastUnitStore)).1.succeeded
      = true ∧
    (interleave aliceRequest bobRequest serialSchedule (.start, .start, lastUnitStore)).2.1.returned
      = some (.insufficientStock "Pizza" 0) ∧
    ((interleave aliceRequest bobRequest serialSchedule
      (.start, .start, lastUnitStore)).2.2.products 1).map (fun p => p.stock) = some 0 := by
  refine ⟨by decide!, by decide!, by decide!, by decide!, by decide!, by decide!, by decide!,
    by decide!⟩

/-! ## Lemmas on stored totals and on the stock loop -/

/-- When every claimed price is within 0.01 of the live price and no quantity is negative,
the live total is within 0.01 per ordered unit of the sum of claimed price times quantity. -/
theorem liveTotal_storedSum_bound (products : ObjectId → Option Product)
    (items : List OrderItemInput)
    (h : ∀ i ∈ items, |livePrice products i.product - i.price| ≤ 1 / 100 ∧ 0 ≤ i.quantity) :
    |liveTotal products items - storedSum (items.map castItem)| ≤
      1 / 100 * ((totalQuantity (items.map castItem) : Int) : ℚ) := by
  induction items with
  | nil => simp [liveTotal, storedSum, totalQuantity]
  | cons i items ih =>
    have hi := h i (List.mem_cons_self _ _)
    have ih2 := ih (fun x hx => h x (List.mem_cons_of_mem _ hx))
    have hq : (0 : ℚ) ≤ (i.quantity : ℚ) := by exact_mod_cast hi.2
    have e1 : liveTotal products (i :: items) =
        livePrice products i.product * (i.quantity : ℚ) + liveTotal products items := by
      simp [liveTotal]
    have e2 : storedSum ((i :: items).map castItem) =
        i.price * (i.quantity : ℚ) + storedSum (items.map castItem) := by
      simp [storedSum, castItem]
    have e3 : ((totalQuantity ((i :: items).map castItem) : Int) : ℚ) =
        (i.quantity : ℚ) + ((totalQuantity (items.map castItem) : Int) : ℚ) := by
      simp [totalQuantity, castItem]
    rw [e1, e2, e3]
    have e4 : livePrice products i.product * (i.quantity : ℚ) + liveTotal products items -
        (i.price * (i.quantity : ℚ) + storedSum (items.map castItem)) =
        (livePrice products i.product - i.price) * (i.quantity : ℚ) +
          (liveTotal products items - storedSum (items.map castItem)) := by ring
    rw [e4]
    calc |(livePrice products i.product - i.price) * (i.quantity : ℚ) +
            (liveTotal products items - storedSum (items.map castItem))|
        ≤ |(livePrice products i.product - i.price) * (i.quantity : ℚ)| +
            |liveTotal products items - storedSum (items.map castItem)| := abs_add _ _
      _ = |livePrice products i.product - i.price| * (i.quantity : ℚ) +
            |liveTotal products items - storedSum (items.map castItem)| := by
          rw [abs_mul, abs_of_nonneg hq]
      _ ≤ 1 / 100 * (i.quantity : ℚ) +
            1 / 100 * ((totalQuantity (items.map castItem) : Int) : ℚ) :=
          add_le_add (mul_le_mul_of_nonneg_right hi.1 hq) ih2
      _ = 1 / 100 * ((i.quantity : ℚ) + ((totalQuantity (items.map castItem) : Int) : ℚ)) := by
          ring

/-- When every claimed price equals the live price, the live total is the sum of claimed
price times quantity. -/
theorem liveTotal_eq_storedSum (products : ObjectId → Option Product)
    (items : List OrderItemInput)
    (h : ∀ i ∈ items, i.price = livePrice products i.product) :
    liveTotal products items = storedSum (items.map castItem) := by
  induction items with
  | nil => simp [liveTotal, storedSum]
  | cons i items ih =>
    have hi := h i (List.mem_cons_self _ _)
    have ih2 := ih (fun x hx => h x (List.mem_cons_of_mem _ hx))
    simp only [liveTotal, storedSum, List.map_cons, List.sum_cons] at ih2 ⊢
    rw [ih2]
    simp [castItem, hi]

/-- A document that passes the validation of `save` has quantities of at least 1. -/
theorem quantity_pos_of_orderValid (newId : ObjectId) (now : Nat) (u : Principal)
    (input : CreateOrderInput) (items : List OrderItemInput) (t : ℚ)
    (h : orderValid (newOrder newId now u input items t) = true) :
    ∀ i ∈ items, 1 ≤ i.quantity := by
  intro i hi
  unfold orderValid newOrder at h
  simp only [Bool.and_eq_true, List.all_eq_true] at h
  have hitem := h.1.1.1.1 (castItem i) (List.mem_map_of_mem castItem hi)
  unfold itemValid castItem at hitem
  simp only [Bool.and_eq_true, decide_eq_true_eq] at hitem
  exact hitem.1.2

theorem orderedQuantity_cons (item : OrderItemInput) (items : List OrderItemInput)
    (pid : ObjectId) :
    orderedQuantity (item :: items) pid =
      (if pid = item.product then item.quantity else 0) + orderedQuantity items pid := by
  unfold orderedQuantity
  by_cases h : pid = item.product
  · subst h
    simp [List.filter_cons]
  · have h2 : ¬ item.product = pid := fun e => h e.symm
    simp [List.filter_cons, h, h2]

theorem orderedQuantity_of_not_referenced (items : List OrderItemInput) (pid : ObjectId)
    (h : ∀ i ∈ items, i.product ≠ pid) : orderedQuantity items pid = 0 := by
  induction items with
  | nil => rfl
  | cons i items ih =>
    have hi : ¬ pid = i.product := fun e => h i (List.mem_cons_self _ _) e.symm
    rw [orderedQuantity_cons, if_neg hi, ih (fun x hx => h x (List.mem_cons_of_mem _ hx))]
    rfl

/-- The stock loop of `createOrder` lowers the stock of every existing product by the sum of
the quantities of the lines referencing it, and changes nothing else. -/
theorem decrementStock_apply (products : ObjectId → Option Product)
    (items : List OrderItemInput) (pid : ObjectId) :
    decrementStock products items pid =
      (products pid).map (fun p => { p with stock := p.stock - orderedQuantity items pid }) := by
  induction items generalizing products with
  | nil =>
    cases h : products pid <;> simp [decrementStock, orderedQuantity, h]
  | cons item items ih =>
    have hstep : decrementStock products (item :: items) =
        decrementStock (incStock products item.product (-item.quantity)) items := rfl
    rw [hstep, ih, incStock_apply, orderedQuantity_cons]
    by_cases h : pid = item.product
    · simp only [if_pos h]
      cases products pid with
      | none => rfl
      | some p =>
        simp only [Option.map_some']
        have e : p.stock + -item.quantity - orderedQuantity items pid =
            p.stock - (item.quantity + orderedQuantity items pid) := by omega
        rw [e]
    · simp only [if_neg h, zero_add]

/-- Claim C18 (as stated, refuted).  With a live price of 10 and a claimed unit price of
10.01 (within the tolerance) for 3 units, `createOrder` succeeds and stores the line with
the claimed price 10.01 but the total 30 computed from the live price; the sum over the
stored lines of stored price times stored quantity is 30.03. -/
theorem stored_total_differs_from_stored_sum :
    (createOrder pizzaStore (some alice) (cartOf [pizzaLine (10 + 1 / 100) 3] 30) 100 0).1.success
      = true ∧
    (createOrder pizzaStore (some alice) (cartOf [pizzaLine (10 + 1 / 100) 3] 30) 100 0).2.orders.map
      (fun o => (o.total, storedSum o.items)) = [(30, 3003 / 100)] ∧
    (30 : ℚ) ≠ 3003 / 100 := by
  refine ⟨by decide!, by decide!, by decide!⟩

/-- Claim C18 (amended).  For every order persisted by `createOrder`, the stored line items
are the submitted ones as cast by the schema, the stored total equals the sum of live price
times quantity, and it differs from the sum over the stored line items of stored price times
stored quantity by at most 0.01 times the sum of the stored quantities; the two are equal
whenever every claimed unit price equals the live price. -/
theorem stored_total_near_stored_sum (s : Store) (user : Option Principal)
    (input : CreateOrderInput) (newId : ObjectId) (now : Nat)
    (h : (createOrder s user input newId now).1.success = true) :
    ∃ items order, input.items = some items ∧
      (createOrder s user input newId now).2.orders = s.orders ++ [order] ∧
      order.items = items.map castItem ∧
      order.total = liveTotal s.products items ∧
      |order.total - storedSum order.items| ≤
        1 / 100 * ((totalQuantity order.items : Int) : ℚ) ∧
      ((∀ i ∈ items, i.price = livePrice s.products i.product) →
        order.total = storedSum order.items) := by
  obtain ⟨u, items, t, _, hi, _, hv, _, hvalid, heq⟩ :=
    createOrder_success_shape s user input newId now h
  have ht : t = liveTotal s.products items := by
    have := validateItems_ok_total s.products items 0 t hv
    simpa using this
  have hq := quantity_pos_of_orderValid newId now u input items t hvalid
  have hchk := validateItems_ok_checked s.products items 0 t hv
  have hbound : ∀ i ∈ items,
      |livePrice s.products i.product - i.price| ≤ 1 / 100 ∧ 0 ≤ i.quantity := by
    intro i hmem
    obtain ⟨p, hp, _, hprice⟩ := hchk i hmem
    have hq1 := hq i hmem
    refine ⟨?_, by omega⟩
    simp only [livePrice, hp]
    exact hprice
  refine ⟨items, newOrder newId now u input items t, hi, ?_, rfl, ht, ?_, ?_⟩
  · rw [heq]
  · show |t - storedSum (items.map castItem)| ≤
      1 / 100 * ((totalQuantity (items.map castItem) : Int) : ℚ)
    rw [ht]
    exact liveTotal_storedSum_bound s.products items hbound
  · intro hsame
    show t = storedSum (items.map castItem)
    rw [ht]
    exact liveTotal_eq_storedSum s.products items hsame

theorem stored_total_near_stored_sum_witness :
    (createOrder pizzaStore (some alice) (cartOf [pizzaLine (10 + 1 / 100) 3] 30) 100 0).1.success
      = true ∧
    ∃ items order, (cartOf [pizzaLine (10 + 1 / 100) 3] 30).items = some items ∧
      (createOrder pizzaStore (some alice)
        (cartOf [pizzaLine (10 + 1 / 100) 3] 30) 100 0).2.orders = pizzaStore.orders ++ [order] ∧
      order.items = items.map castItem ∧
      order.total = liveTotal pizzaStore.products items ∧
      |order.total - storedSum order.items| ≤
        1 / 100 * ((totalQuantity order.items : Int) : ℚ) ∧
      ((∀ i ∈ items, i.price = livePrice pizzaStore.products i.product) →
        order.total = storedSum order.items) :=
  ⟨by decide!, stored_total_near_stored_sum pizzaStore (some alice)
    (cartOf [pizzaLine (10 + 1 / 100) 3] 30) 100 0 (by decide!)⟩

/-- Claim C19.  Every successful `createOrder` appends exactly one document to the order
collection, leaving the documents already there as they were.  The new document has the
generated identifier, status `pending`, the calling principal as owner, and one stored line
per submitted line, in the submitted order, with the submitted product, price and quantity
(the name is the submitted name trimmed by the schema, a missing image becomes the empty
string). -/
theorem createOrder_persists_one_pending_order (s : Store) (user : Option Principal)
    (input : CreateOrderInput) (newId : ObjectId) (now : Nat)
    (h : (createOrder s user input newId now).1.success = true) :
    ∃ u items order, user = some u ∧ input.items = some items ∧
      (createOrder s user input newId now).2.orders = s.orders ++ [order] ∧
      (createOrder s user input newId now).2.orders.length = s.orders.length + 1 ∧
      (createOrder s user input newId now).1.order = some order ∧
      order.id = newId ∧ order.status = .pending ∧ order.user = u.id ∧
      order.items = items.map castItem ∧
      order.items.map (fun i => (i.product, i.price, i.quantity)) =
        items.map (fun i => (i.product, i.price, i.quantity)) ∧
      order.items.map (fun i => i.name) = items.map (fun i => jsTrim i.name) := by
  obtain ⟨u, items, t, hu, hi, _, _, _, _, heq⟩ :=
    createOrder_success_shape s user input newId now h
  refine ⟨u, items, newOrder newId now u input items t, hu, hi, ?_, ?_, ?_, rfl, rfl, rfl, rfl,
    ?_, ?_⟩
  · rw [heq]
  · rw [heq]
    simp
  · rw [heq]
  · show (items.map castItem).map _ = _
    rw [List.map_map]
    rfl
  · show (items.map castItem).map _ = _
    rw [List.map_map]
    rfl

theorem createOrder_persists_one_pending_order_witness :
    (createOrder orderedStore (some bob) (cartOf [colaLine 2 3, pizzaLine 10 1] 16) 101 7).1.success
      = true ∧
    ∃ u items order, some bob = some u ∧
      (cartOf [colaLine 2 3, pizzaLine 10 1] 16).items = some items ∧
      (createOrder orderedStore (some bob)
        (cartOf [colaLine 2 3, pizzaLine 10 1] 16) 101 7).2.orders =
          orderedStore.orders ++ [order] ∧
      (createOrder orderedStore (some bob)
        (cartOf [colaLine 2 3, pizzaLine 10 1] 16) 101 7).2.orders.length =
          orderedStore.orders.length + 1 ∧
      (createOrder orderedStore (some bob)
        (cartOf [colaLine 2 3, pizzaLine 10 1] 16) 101 7).1.order = some order ∧
      order.id = 101 ∧ order.status = .pending ∧ order.user = u.id ∧
      order.items = items.map castItem ∧
      order.items.map (fun i => (i.product, i.price, i.quantity)) =
        items.map (fun i => (i.product, i.price, i.quantity)) ∧
      order.items.map (fun i => i.name) = items.map (fun i => jsTrim i.name) :=
  ⟨by decide!, createOrder_persists_one_pending_order orderedStore (some bob)
    (cartOf [colaLine 2 3, pizzaLine 10 1] 16) 101 7 (by decide!)⟩

/-- Claim C20.  Every successful `createOrder` leaves each product with all its fields
except that its stock is lowered by exactly the sum of the quantities of the submitted line
items that reference it; a product that no line item references is unchanged, and no
product appears or disappears. -/
theorem createOrder_decrements_ordered_quantities (s : Store) (user : Option Principal)
    (input : CreateOrderInput) (newId : ObjectId) (now : Nat)
    (h : (createOrder s user input newId now).1.success = true) :
    ∃ items, input.items = some items ∧
      (∀ pid, (createOrder s user input newId now).2.products pid =
        (s.products pid).map
          (fun p => { p with stock := p.stock - orderedQuantity items pid })) ∧
      (∀ pid, (∀ i ∈ items, i.product ≠ pid) →
        (createOrder s user input newId now).2.products pid = s.products pid) := by
  obtain ⟨u, items, t, _, hi, _, _, _, _, heq⟩ :=
    createOrder_success_shape s user input newId now h
  refine ⟨items, hi, ?_, ?_⟩
  · intro pid
    rw [heq]
    exact decrementStock_apply s.products items pid
  · intro pid hnot
    rw [heq]
    show decrementStock s.products items pid = s.products pid
    rw [decrementStock_apply, orderedQuantity_of_not_referenced items pid hnot]
    cases s.products pid with
    | none => rfl
    | some p => simp

theorem createOrder_decrements_ordered_quantities_witness :
    (createOrder menuStore (some alice)
      (cartOf [pizzaLine 10 1, colaLine 2 4, pizzaLine 10 2] 38) 100 0).1.success = true ∧
    ∃ items, (cartOf [pizzaLine 10 1, colaLine 2 4, pizzaLine 10 2] 38).items = some items ∧
      (∀ pid, (createOrder menuStore (some alice)
          (cartOf [pizzaLine 10 1, colaLine 2 4, pizzaLine 10 2] 38) 100 0).2.products pid =
        (menuStore.products pid).map
          (fun p => { p with stock := p.stock - orderedQuantity items pid })) ∧
      (∀ pid, (∀ i ∈ items, i.product ≠ pid) →
        (createOrder menuStore (some alice)
          (cartOf [pizzaLine 10 1, colaLine 2 4, pizzaLine 10 2] 38) 100 0).2.products pid =
          menuStore.products pid) :=
  ⟨by decide!, createOrder_decrements_ordered_quantities menuStore (some alice)
    (cartOf [pizzaLine 10 1, colaLine 2 4, pizzaLine 10 2] 38) 100 0 (by decide!)⟩

/-- The stock loop evaluated on a cart with a repeated product: 1 + 2 pizzas and 4 colas
lower the stocks from 3 and 10 to 0 and 6. -/
theorem decrement_example :
    ((createOrder menuStore (some alice)
      (cartOf [pizzaLine 10 1, colaLine 2 4, pizzaLine 10 2] 38) 100 0).2.products 1).map
        (fun p => p.stock) = some 0 ∧
    ((createOrder menuStore (some alice)
      (cartOf [pizzaLine 10 1, colaLine 2 4, pizzaLine 10 2] 38) 100 0).2.products 2).map
        (fun p => p.stock) = some 6 := by
  refine ⟨by decide!, by decide!⟩

/-! ## Queries -/

/-- What `Query.order` returns on an existing order: the order for an administrator or the
owner, the one error of the `catch` block for anybody else. -/
theorem orderQuery_of_found (s : Store) (u : Principal) (id : ObjectId) (o : Order)
    (hfind : findOrder s.orders id = some o) :
    orderQuery s (some u) id =
      if u.role ≠ "admin" ∧ o.user ≠ u.id then .error .orderFetchFailed else .ok o := by
  unfold orderQuery orderQueryTry
  simp only [hfind]
  split_ifs <;> rfl

/-- What `Query.order` returns for an identifier that matches no order. -/
theorem orderQuery_of_missing (s : Store) (u : Principal) (id : ObjectId)
    (hnone : findOrder s.orders id = none) :
    orderQuery s (some u) id = .error .orderFetchFailed := by
  unfold orderQuery orderQueryTry
  simp only [hnone]

/-- Claim C21 (evaluation at the failing input).  Bob asks for the order of alice and for an
identifier that matches no order.  Inside the `try` block the first raises `No autorizado` and the
second `Pedido no encontrado`, but the `catch` block replaces both: the two calls return the
same error, so the caller cannot tell a refusal from a missing order.  Alice and an
administrator do get the order.  The mutation `cancelOrder`, called by bob with the same two
identifiers, reports the refusal and the missing order as two different failures. -/
theorem order_query_failures_coincide :
    orderQueryTry orderedStore (some bob) 100 = .error .notAuthorized ∧
    orderQueryTry orderedStore (some bob) 404 = .error .orderNotFound ∧
    orderQuery orderedStore (some bob) 100 = .error .orderFetchFailed ∧
    orderQuery orderedStore (some bob) 404 = .error .orderFetchFailed ∧
    orderQuery orderedStore (some bob) 100 = orderQuery orderedStore (some bob) 404 ∧
    orderQuery orderedStore (some alice) 100 = .ok aliceOrder ∧
    orderQuery orderedStore (some adminUser) 100 = .ok aliceOrder ∧
    (cancelOrder orderedStore (some bob) 100 5).1 = orderFailure .notAuthorized ∧
    (cancelOrder orderedStore (some bob) 404 5).1 = orderFailure .orderNotFound := by
  refine ⟨by decide!, by decide!, by decide!, by decide!, by decide!, by decide!, by decide!,
    by decide!, by decide!⟩

theorem mem_findOrders (orders : List Order) (owner : Option ObjectId)
    (status : Option String) (o : Order) :
    o ∈ findOrders orders owner status ↔
      o ∈ orders ∧ (∀ id, owner = some id → o.user = id) ∧
        (∀ st, status = some st → statusName o.status = st) := by
  unfold findOrders
  rw [List.mem_filter]
  cases owner <;> cases status <;> simp

/-- For every principal, `Query.orders` returns exactly the stored orders that have the
requested status, when one is supplied, and that are owned by the principal when the role of
the principal is `user`. -/
theorem ordersQuery_mem (s : Store) (u : Principal) (status : Option String) :
    ∃ l, ordersQuery s (some u) status = .ok l ∧
      ∀ o, o ∈ l ↔ (o ∈ s.orders ∧ (u.role = "user" → o.user = u.id) ∧
        (∀ st, statusFilter status = some st → statusName o.status = st)) := by
  refine ⟨_, rfl, ?_⟩
  intro o
  unfold sortNewestFirst
  rw [List.mem_insertionSort, mem_findOrders]
  by_cases hrole : u.role = "user"
  · rw [if_pos hrole]
    constructor
    · rintro ⟨h1, h2, h3⟩
      exact ⟨h1, fun _ => h2 u.id rfl, h3⟩
    · rintro ⟨h1, h2, h3⟩
      refine ⟨h1, ?_, h3⟩
      intro id hid
      cases hid
      exact h2 hrole
  · rw [if_neg hrole]
    constructor
    · rintro ⟨h1, _, h3⟩
      exact ⟨h1, fun h => absurd h hrole, h3⟩
    · rintro ⟨h1, _, h3⟩
      refine ⟨h1, ?_, h3⟩
      intro id hid
      cases hid

/-- The handler `GET /api/orders` returns, to every caller, only orders owned by the caller. -/
theorem restOrders_owned (s : Store) (u : Principal) (status : Option String)
    (l : List Order) (h : restOrders s (some u) status = .ok l) :
    ∀ o ∈ l, o.user = u.id := by
  intro o ho
  unfold restOrders at h
  cases hst : statusFilter status with
  | none =>
    simp only [hst] at h
    cases h
    unfold sortNewestFirst at ho
    rw [List.mem_insertionSort, mem_findOrders] at ho
    exact ho.2.1 u.id rfl
  | some st =>
    simp only [hst] at h
    split_ifs at h
    cases h
    unfold sortNewestFirst at ho
    rw [List.mem_insertionSort, mem_findOrders] at ho
    exact ho.2.1 u.id rfl

/-- Claim C22 (as stated, refuted).  A principal with role `guest` is not an
administrator and does not own the order of alice, yet `Query.orders` returns that order to
it: the owner restriction is applied only when the role is exactly `user`.  The REST handler
`GET /api/orders` returns nothing to the same principal, and `Query.orders` returns nothing
to bob, whose role is `user`. -/
theorem guest_lists_all_orders :
    guest.role ≠ "admin" ∧ aliceOrder.user ≠ guest.id ∧
    ordersQuery orderedStore (some guest) none = .ok [aliceOrder] ∧
    ordersQuery orderedStore (some guest) (some "pending") = .ok [aliceOrder] ∧
    restOrders orderedStore (some guest) none = .ok [] ∧
    ordersQuery orderedStore (some bob) none = .ok [] := by
  refine ⟨by decide, by decide, by decide!, by decide!, by decide!, by decide!⟩

/-! ## Statistics -/

/-- The revenue read off the aggregation result is the sum of `total` over the completed
orders (the empty sum, zero, when the aggregation returns no group). -/
theorem revenue_of_aggregate (orders : List Order) :
    (if (aggregateRevenue orders).length > 0 then (aggregateRevenue orders).headD 0 else 0) =
      ((orders.filter (fun o => o.status == OrderStatus.completed)).map
        (fun o => o.total)).sum := by
  unfold aggregateRevenue
  cases h : orders.filter (fun o => o.status == OrderStatus.completed) with
  | nil => simp
  | cons o rest => simp

/-- Every order is counted under exactly one of the three statuses. -/
theorem countDocuments_partition (orders : List Order) :
    countDocuments orders .pending + countDocuments orders .completed +
      countDocuments orders .cancelled = orders.length := by
  unfold countDocuments
  induction orders with
  | nil => rfl
  | cons o orders ih =>
    cases hs : o.status <;> simp [List.filter_cons, hs] <;> omega

/-- Claim C23.  For an administrator the statistics resolver `Query.orderStats` returns the
number of orders, the number of orders in each of the three statuses (which add up to the
number of orders), and as `totalRevenue` the sum of `total` over exactly the completed
orders, which is 0 when no order is completed; the REST handler `GET /stats` returns the same
record.  For a caller that is not an administrator both fail. -/
theorem orderStats_values (s : Store) (u : Principal) (hadmin : u.role = "admin") :
    orderStats s (some u) = .ok
      { total := s.orders.length,
        pending := (s.orders.filter (fun o => o.status == OrderStatus.pending)).length,
        completed := (s.orders.filter (fun o => o.status == OrderStatus.completed)).length,
        cancelled := (s.orders.filter (fun o => o.status == OrderStatus.cancelled)).length,
        totalRevenue := ((s.orders.filter (fun o => o.status == OrderStatus.completed)).map
          (fun o => o.total)).sum } ∧
    restStats s (some u) = .ok
      { total := s.orders.length,
        pending := (s.orders.filter (fun o => o.status == OrderStatus.pending)).length,
        completed := (s.orders.filter (fun o => o.status == OrderStatus.completed)).length,
        cancelled := (s.orders.filter (fun o => o.status == OrderStatus.cancelled)).length,
        totalRevenue := ((s.orders.filter (fun o => o.status == OrderStatus.completed)).map
          (fun o => o.total)).sum } ∧
    ((∀ o ∈ s.orders, o.status ≠ .completed) →
      ((s.orders.filter (fun o => o.status == OrderStatus.completed)).map
        (fun o => o.total)).sum = 0) ∧
    (s.orders.filter (fun o => o.status == OrderStatus.pending)).length +
      (s.orders.filter (fun o => o.status == OrderStatus.completed)).length +
      (s.orders.filter (fun o => o.status == OrderStatus.cancelled)).length = s.orders.length ∧
    (∀ v : Principal, v.role ≠ "admin" →
      orderStats s (some v) = .error .statsFetchFailed ∧
      restStats s (some v) = .error .adminRequired) ∧
    orderStats s none = .error .statsFetchFailed ∧
    restStats s none = .error .unauthenticated := by
  have hna : ¬ (u.role ≠ "admin") := fun h => h hadmin
  refine ⟨?_, ?_, ?_, countDocuments_partition s.orders, ?_, rfl, rfl⟩
  · unfold orderStats
    simp only [if_neg hna, revenue_of_aggregate]
    rfl
  · unfold restStats
    simp only [if_pos hadmin, revenue_of_aggregate]
    rfl
  · intro hnone
    have hnil : s.orders.filter (fun o => o.status == OrderStatus.completed) = [] := by
      rw [List.filter_eq_nil_iff]
      intro o ho
      simpa using hnone o ho
    rw [hnil]
    rfl
  · intro v hv
    constructor
    · unfold orderStats
      simp only [if_pos hv]
    · unfold restStats
      simp only [if_neg hv]

theorem orderStats_values_witness :
    adminUser.role = "admin" ∧
    orderStats statsStore (some adminUser) = .ok
      { total := statsStore.orders.length,
        pending := (statsStore.orders.filter (fun o => o.status == OrderStatus.pending)).length,
        completed :=
          (statsStore.orders.filter (fun o => o.status == OrderStatus.completed)).length,
        cancelled :=
          (statsStore.orders.filter (fun o => o.status == OrderStatus.cancelled)).length,
        totalRevenue :=
          ((statsStore.orders.filter (fun o => o.status == OrderStatus.completed)).map
            (fun o => o.total)).sum } ∧
    restStats statsStore (some adminUser) = .ok
      { total := statsStore.orders.length,
        pending := (statsStore.orders.filter (fun o => o.status == OrderStatus.pending)).length,
        completed :=
          (statsStore.orders.filter (fun o => o.status == OrderStatus.completed)).length,
        cancelled :=
          (statsStore.orders.filter (fun o => o.status == OrderStatus.cancelled)).length,
        totalRevenue :=
          ((statsStore.orders.filter (fun o => o.status == OrderStatus.completed)).map
            (fun o => o.total)).sum } ∧
    ((∀ o ∈ statsStore.orders, o.status ≠ .completed) →
      ((statsStore.orders.filter (fun o => o.status == OrderStatus.completed)).map
        (fun o => o.total)).sum = 0) ∧
    (statsStore.orders.filter (fun o => o.status == OrderStatus.pending)).length +
      (statsStore.orders.filter (fun o => o.status == OrderStatus.completed)).length +
      (statsStore.orders.filter (fun o => o.status == OrderStatus.cancelled)).length =
        statsStore.orders.length ∧
    (∀ v : Principal, v.role ≠ "admin" →
      orderStats statsStore (some v) = .error .statsFetchFailed ∧
      restStats statsStore (some v) = .error .adminRequired) ∧
    orderStats statsStore none = .error .statsFetchFailed ∧
    restStats statsStore none = .error .unauthenticated :=
  ⟨rfl, orderStats_values statsStore adminUser rfl⟩

/-- The statistics of `statsStore` (one completed order of total 22, one pending order of
total 4), evaluated: two orders, one pending, one completed, none cancelled, revenue 22; and
of `orderedStore` (one pending order): revenue 0. -/
theorem orderStats_example :
    orderStats statsStore (some adminUser) = .ok
      { total := 2, pending := 1, completed := 1, cancelled := 0, totalRevenue := 22 } ∧
    restStats statsStore (some adminUser) = .ok
      { total := 2, pending := 1, completed := 1, cancelled := 0, totalRevenue := 22 } ∧
    orderStats orderedStore (some adminUser) = .ok
      { total := 1, pending := 1, completed := 0, cancelled := 0, totalRevenue := 0 } ∧
    orderStats statsStore (some alice) = .error .statsFetchFailed := by
  refine ⟨by decide!, by decide!, by decide!, by decide!⟩

/-! ## Quantity bounds -/

/-- A document that passes the validation of `save` has quantities of at most 100. -/
theorem quantity_le_of_orderValid (newId : ObjectId) (now : Nat) (u : Principal)
    (input : CreateOrderInput) (items : List OrderItemInput) (t : ℚ)
    (h : orderValid (newOrder newId now u input items t) = true) :
    ∀ i ∈ items, i.quantity ≤ 100 := by
  intro i hi
  unfold orderValid newOrder at h
  simp only [Bool.and_eq_true, List.all_eq_true] at h
  have hitem := h.1.1.1.1 (castItem i) (List.mem_map_of_mem castItem hi)
  unfold itemValid castItem at hitem
  simp only [Bool.and_eq_true, decide_eq_true_eq] at hitem
  exact hitem.2

/-- Claim C24.  For every `createOrder` call in which some line item has a quantity below 1
(zero or negative) or above 100, the call reports failure, returns no order, and the store
after the call is the store before it: no order is persisted and no stock is changed. -/
theorem quantity_out_of_range_rejected (s : Store) (user : Option Principal)
    (input : CreateOrderInput) (newId : ObjectId) (now : Nat) (items : List OrderItemInput)
    (hitems : input.items = some items)
    (hbad : ∃ i ∈ items, i.quantity < 1 ∨ 100 < i.quantity) :
    (createOrder s user input newId now).2 = s ∧
    (createOrder s user input newId now).1.success = false ∧
    (createOrder s user input newId now).1.order = none := by
  cases hs : (createOrder s user input newId now).1.success with
  | true =>
    exfalso
    obtain ⟨u, items2, t, _, hi, _, _, _, hvalid, _⟩ :=
      createOrder_success_shape s user input newId now hs
    rw [hitems] at hi
    cases hi
    obtain ⟨i, hmem, hq⟩ := hbad
    have h1 := quantity_pos_of_orderValid newId now u input items t hvalid i hmem
    have h2 := quantity_le_of_orderValid newId now u input items t hvalid i hmem
    omega
  | false =>
    obtain ⟨m, heq⟩ := createOrder_failure_shape s user input newId now hs
    rw [heq]
    exact ⟨rfl, rfl, rfl⟩

theorem quantity_out_of_range_rejected_witness :
    (cartOf [pizzaLine 10 (-2)] (-20)).items = some [pizzaLine 10 (-2)] ∧
    (∃ i ∈ [pizzaLine 10 (-2)], i.quantity < 1 ∨ 100 < i.quantity) ∧
    (createOrder pizzaStore (some alice) (cartOf [pizzaLine 10 (-2)] (-20)) 100 0).2 =
      pizzaStore ∧
    (createOrder pizzaStore (some alice) (cartOf [pizzaLine 10 (-2)] (-20)) 100 0).1.success
      = false ∧
    (createOrder pizzaStore (some alice) (cartOf [pizzaLine 10 (-2)] (-20)) 100 0).1.order
      = none :=
  ⟨rfl, ⟨pizzaLine 10 (-2), List.mem_singleton.mpr rfl, Or.inl (by decide)⟩,
    quantity_out_of_range_rejected pizzaStore (some alice)
      (cartOf [pizzaLine 10 (-2)] (-20)) 100 0 [pizzaLine 10 (-2)] rfl
      ⟨pizzaLine 10 (-2), List.mem_singleton.mpr rfl, Or.inl (by decide)⟩⟩

/-- A negative quantity, evaluated: the line passes the stock, price and total checks (the
claimed total is negative as well) and is stopped by the validation of `save`; the stock of
the pizza stays at 5.  A quantity of 101 against a stock of 5 is stopped by the stock check. -/
theorem quantity_example :
    (createOrder pizzaStore (some alice) (cartOf [pizzaLine 10 (-2)] (-20)) 100 0).1 =
      orderFailure (.createOrderError .validationFailed) ∧
    ((createOrder pizzaStore (some alice) (cartOf [pizzaLine 10 (-2)] (-20)) 100 0).2.products
      1).map (fun p => p.stock) = some 5 ∧
    (createOrder pizzaStore (some alice) (cartOf [pizzaLine 10 101] 1010) 100 0).1 =
      orderFailure (.insufficientStock "Pizza" 5) := by
  refine ⟨by decide!, by decide!, by decide!⟩

/-! ## Virtuals -/

theorem foldl_quantity (items : List OrderItem) (a : Int) :
    items.foldl (fun sum item => sum + item.quantity) a = a + totalQuantity items := by
  induction items generalizing a with
  | nil => simp [totalQuantity]
  | cons i items ih =>
    rw [List.foldl_cons, ih]
    simp [totalQuantity, add_assoc]

theorem length_le_totalQuantity (items : List OrderItem)
    (h : ∀ i ∈ items, 1 ≤ i.quantity) : (items.length : Int) ≤ totalQuantity items := by
  induction items with
  | nil => simp [totalQuantity]
  | cons i items ih =>
    have h1 := h i (List.mem_cons_self _ _)
    have h2 := ih (fun x hx => h x (List.mem_cons_of_mem _ hx))
    simp only [totalQuantity, List.map_cons, List.sum_cons, List.length_cons] at h2 ⊢
    push_cast
    omega

theorem sliceLast_two_append (l : List Char) (a b : Char) :
    sliceLast 2 (l ++ [a, b]) = [a, b] := by
  unfold sliceLast
  have hlen : (l ++ [a, b]).length - 2 = l.length := by simp
  rw [hlen, List.drop_left]

/-- The decimal digits of a number of at least two digits start, from the least significant
end, with the units and the tens. -/
theorem decimalDigitsRev_two (n : Nat) (h : 10 ≤ n) :
    ∃ rest, decimalDigitsRev (n + 1) n = n % 10 :: (n / 10 % 10) :: rest := by
  obtain ⟨k, rfl⟩ : ∃ k, n = k + 1 := ⟨n - 1, by omega⟩
  have h1 : ¬ (k + 1 < 10) := by omega
  by_cases h2 : (k + 1) / 10 < 10
  · refine ⟨[], ?_⟩
    have e : (k + 1) / 10 % 10 = (k + 1) / 10 := Nat.mod_eq_of_lt h2
    simp only [decimalDigitsRev, if_neg h1, if_pos h2, e]
  · refine ⟨decimalDigitsRev k ((k + 1) / 10 / 10), ?_⟩
    simp only [decimalDigitsRev, if_neg h1, if_neg h2]

/-- The last two characters of the decimal rendering of a number of at least two digits are
its tens digit and its units digit. -/
theorem sliceLast_two_numberToString (n : Nat) (h : 10 ≤ n) :
    sliceLast 2 (numberToString n) = [digitChar (n / 10 % 10), digitChar (n % 10)] := by
  obtain ⟨rest, hrest⟩ := decimalDigitsRev_two n h
  unfold numberToString
  rw [hrest]
  have e : (n % 10 :: (n / 10 % 10) :: rest).reverse.map digitChar =
      rest.reverse.map digitChar ++ [digitChar (n / 10 % 10), digitChar (n % 10)] := by
    simp
  rw [e, sliceLast_two_append]

/-- The month number, padded to two characters, is its tens digit and its units digit. -/
theorem padStart_month (m : Nat) (h : m < 12) :
    padStart 2 '0' (numberToString (m + 1)) =
      [digitChar ((m + 1) / 10), digitChar ((m + 1) % 10)] := by
  interval_cases m <;> rfl

/-- Claim C25.  The virtual `itemCount` of an order is the sum of the quantities of its line
items, 0 for an order without items, and at least the number of line items when every
quantity is at least 1.  The virtual `orderNumber` is `ORD-`, the last two digits of the
creation year, the creation month (counted from 1) as two digits, `-`, and the last six
characters of the identifier in upper case.  Both are functions of the order alone: reading
them writes nothing. -/
theorem order_virtuals (getFullYear getMonth : Nat → Nat) (o : Order)
    (hyear : 10 ≤ getFullYear o.createdAt) (hmonth : getMonth o.createdAt < 12) :
    itemCount o = totalQuantity o.items ∧
    (o.items = [] → itemCount o = 0) ∧
    ((∀ i ∈ o.items, 1 ≤ i.quantity) → (o.items.length : Int) ≤ itemCount o) ∧
    orderNumber getFullYear getMonth o =
      String.mk ("ORD-".data ++
        [digitChar (getFullYear o.createdAt / 10 % 10), digitChar (getFullYear o.createdAt % 10)] ++
        [digitChar ((getMonth o.createdAt + 1) / 10), digitChar ((getMonth o.createdAt + 1) % 10)] ++
        "-".data ++ (sliceLast 6 (objectIdToString o.id)).map Char.toUpper) := by
  have hcount : itemCount o = totalQuantity o.items := by
    unfold itemCount
    rw [foldl_quantity, zero_add]
  refine ⟨hcount, ?_, ?_, ?_⟩
  · intro hnil
    rw [hcount, hnil]
    rfl
  · intro hall
    rw [hcount]
    exact length_le_totalQuantity o.items hall
  · unfold orderNumber
    simp only [sliceLast_two_numberToString _ hyear, padStart_month _ hmonth, toUpperCase]

theorem order_virtuals_witness :
    10 ≤ (fun _ : Nat => 2024) aliceOrder.createdAt ∧
    (fun _ : Nat => 2) aliceOrder.createdAt < 12 ∧
    itemCount aliceOrder = totalQuantity aliceOrder.items ∧
    (aliceOrder.items = [] → itemCount aliceOrder = 0) ∧
    ((∀ i ∈ aliceOrder.items, 1 ≤ i.quantity) →
      (aliceOrder.items.length : Int) ≤ itemCount aliceOrder) ∧
    orderNumber (fun _ => 2024) (fun _ => 2) aliceOrder =
      String.mk ("ORD-".data ++
        [digitChar ((fun _ : Nat => 2024) aliceOrder.createdAt / 10 % 10),
         digitChar ((fun _ : Nat => 2024) aliceOrder.createdAt % 10)] ++
        [digitChar (((fun _ : Nat => 2) aliceOrder.createdAt + 1) / 10),
         digitChar (((fun _ : Nat => 2) aliceOrder.createdAt + 1) % 10)] ++
        "-".data ++ (sliceLast 6 (objectIdToString aliceOrder.id)).map Char.toUpper) :=
  ⟨by decide, by decide,
    order_virtuals (fun _ => 2024) (fun _ => 2) aliceOrder (by decide) (by decide)⟩

/-- The virtuals evaluated: an order created in March 2024 whose identifier ends in
`b8c9d0` has the number `ORD-2403-B8C9D0`; the order of alice (2 pizzas, 1 cola) counts 3
items. -/
theorem order_virtuals_example :
    orderNumber (fun _ => 2024) (fun _ => 2)
      { aliceOrder with id := 0x64b7f3a2c1d4e5f6a7b8c9d0 } = "ORD-2403-B8C9D0" ∧
    orderNumber (fun _ => 2025) (fun _ => 11) aliceOrder = "ORD-2512-000064" ∧
    itemCount aliceOrder = 3 := by
  refine ⟨by decide!, by decide!, by decide!⟩

/-! ## Product operations and stored orders -/

theorem setStatus_frozen (orders : List Order) (id : ObjectId) (st : OrderStatus) (now : Nat) :
    (setStatus orders id st now).map (fun o => (o.id, o.user, o.items, o.total)) =
      orders.map (fun o => (o.id, o.user, o.items, o.total)) := by
  unfold setStatus
  rw [List.map_map]
  apply List.map_congr_left
  intro x _
  simp only [Function.comp]
  split_ifs <;> rfl

theorem setStatus_other_status (orders : List Order) (id : ObjectId) (st : OrderStatus)
    (now : Nat) :
    (setStatus orders id st now).map (fun o => if o.id = id then none else some o.status) =
      orders.map (fun o => if o.id = id then none else some o.status) := by
  unfold setStatus
  rw [List.map_map]
  apply List.map_congr_left
  intro x _
  simp only [Function.comp]
  by_cases h : x.id = id
  · simp [h]
  · simp [h]

theorem createProduct_orders (s : Store) (user : Option Principal) (name description : String)
    (price : ℚ) (category : String) (stock : Int) (newId : ObjectId) :
    (createProduct s user name description price category stock newId).2.orders = s.orders := by
  unfold createProduct
  cases user with
  | none => rfl
  | some u =>
    simp only
    split_ifs <;> rfl

theorem deleteProduct_orders (s : Store) (user : Option Principal) (productId : ObjectId) :
    (deleteProduct s user productId).2.orders = s.orders := by
  unfold deleteProduct
  cases user with
  | none => rfl
  | some u =>
    simp only
    split_ifs
    · rfl
    · cases s.products productId <;> rfl

/-- Claim C26.  `updateProductStock`, `createProduct` and `deleteProduct` return the order
collection exactly as it was.  `createOrder` only appends to it.  `cancelOrder`, whose stock
loop writes to products alone, leaves identifier, owner, line items and total of every
stored order as they were, and the status of every order other than the one being
cancelled. -/
theorem product_operations_keep_orders (s : Store) (user : Option Principal) :
    (∀ productId stock, (updateProductStock s user productId stock).2.orders = s.orders) ∧
    (∀ name description price category stock newId,
      (createProduct s user name description price category stock newId).2.orders =
        s.orders) ∧
    (∀ productId, (deleteProduct s user productId).2.orders = s.orders) ∧
    (∀ input newId now, ∃ added,
      (createOrder s user input newId now).2.orders = s.orders ++ added) ∧
    (∀ orderId now,
      (cancelOrder s user orderId now).2.orders.map
          (fun o => (o.id, o.user, o.items, o.total)) =
        s.orders.map (fun o => (o.id, o.user, o.items, o.total)) ∧
      (cancelOrder s user orderId now).2.orders.map
          (fun o => if o.id = orderId then none else some o.status) =
        s.orders.map (fun o => if o.id = orderId then none else some o.status)) := by
  refine ⟨?_, ?_, ?_, ?_, ?_⟩
  · intro productId stock
    exact updateProductStock_orders s user productId stock
  · intro name description price category stock newId
    exact createProduct_orders s user name description price category stock newId
  · intro productId
    exact deleteProduct_orders s user productId
  · intro input newId now
    cases hs : (createOrder s user input newId now).1.success with
    | true =>
      obtain ⟨u, items, t, _, _, _, _, _, _, heq⟩ :=
        createOrder_success_shape s user input newId now hs
      exact ⟨[newOrder newId now u input items t], by rw [heq]⟩
    | false =>
      obtain ⟨m, heq⟩ := createOrder_failure_shape s user input newId now hs
      exact ⟨[], by rw [heq]; simp⟩
  · intro orderId now
    rcases cancelOrder_orders s user orderId now with e | e
    · rw [e]
      exact ⟨rfl, rfl⟩
    · rw [e]
      exact ⟨setStatus_frozen _ _ _ _, setStatus_other_status _ _ _ _⟩

/-- Deleting the pizza from `orderedStore` leaves the order of alice, which refers to it,
as it was; cancelling that order afterwards still succeeds and restores the cola. -/
theorem deleteProduct_example :
    (deleteProduct orderedStore (some adminUser) 1).1.success = true ∧
    (deleteProduct orderedStore (some adminUser) 1).2.products 1 = none ∧
    (deleteProduct orderedStore (some adminUser) 1).2.orders = [aliceOrder] ∧
    (cancelOrder (deleteProduct orderedStore (some adminUser) 1).2 (some alice) 100 5).1.success
      = true ∧
    ((cancelOrder (deleteProduct orderedStore (some adminUser) 1).2 (some alice) 100 5).2.products
      2).map (fun p => p.stock) = some 10 := by
  refine ⟨by decide!, by decide!, by decide!, by decide!, by decide!⟩

/-! ## Order of the per-item checks -/

/-- Claim C27 (as stated, refuted).  The pizza costs 10 and 5 are in stock.  A line claiming
the price 12 (off by more than 0.01) and asking for 9 units fails with the
insufficient-stock message, not with the price-changed one: the stock comparison comes
first. -/
theorem stock_checked_before_price :
    |(10 : ℚ) - (pizzaLine 12 9).price| > 1 / 100 ∧
    (5 : Int) < (pizzaLine 12 9).quantity ∧
    (createOrder pizzaStore (some alice) (cartOf [pizzaLine 12 9] 108) 100 0).1 =
      orderFailure (.insufficientStock "Pizza" 5) ∧
    (createOrder pizzaStore (some alice) (cartOf [pizzaLine 12 9] 108) 100 0).1.message ≠
      .priceChanged "Pizza" := by
  refine ⟨by decide!, by decide, by decide!, by decide!⟩

/-- Claim C27 (amended).  Per line item the validation loop applies its checks in the order
product exists, stock sufficiency, price agreement: for a line item whose product exists,
whose claimed price differs from the live price by more than 0.01 and whose quantity also
exceeds the live stock (the lines before it passing), `createOrder` fails with the
insufficient-stock message and not with the price-changed one. -/
theorem insufficient_stock_precedes_price_mismatch (s : Store) (u : Principal)
    (input : CreateOrderInput) (newId : ObjectId) (now : Nat)
    (pre post : List OrderItemInput) (item : OrderItemInput) (acc : ℚ) (p : Product)
    (hitems : input.items = some (pre ++ item :: post))
    (hpre : validateItems s.products pre 0 = .ok acc)
    (hp : s.products item.product = some p)
    (_hprice : |p.price - item.price| > 1 / 100) (hstock : p.stock < item.quantity) :
    createOrder s (some u) input newId now =
      (orderFailure (.insufficientStock p.name p.stock), s) ∧
    ∀ n, (createOrder s (some u) input newId now).1.message ≠ .priceChanged n := by
  have hval := validateItems_insufficient s.products pre post item acc p hpre hp hstock
  have hne : pre ++ item :: post ≠ [] := by simp
  rw [createOrder_of_validate_error s u input newId now _ _ hitems hne hval]
  refine ⟨rfl, ?_⟩
  intro n
  simp [orderFailure]

theorem insufficient_stock_precedes_price_mismatch_witness :
    (cartOf [colaLine 2 1, pizzaLine 12 9] 110).items =
      some ([colaLine 2 1] ++ pizzaLine 12 9 :: []) ∧
    validateItems menuStore.products [colaLine 2 1] 0 = .ok 2 ∧
    menuStore.products (pizzaLine 12 9).product =
      some { name := "Pizza", price := 10, stock := 3 } ∧
    |(10 : ℚ) - (pizzaLine 12 9).price| > 1 / 100 ∧
    (3 : Int) < (pizzaLine 12 9).quantity ∧
    createOrder menuStore (some alice) (cartOf [colaLine 2 1, pizzaLine 12 9] 110) 100 0 =
      (orderFailure (.insufficientStock "Pizza" 3), menuStore) ∧
    ∀ n, (createOrder menuStore (some alice)
      (cartOf [colaLine 2 1, pizzaLine 12 9] 110) 100 0).1.message ≠ .priceChanged n :=
  have h1 : (cartOf [colaLine 2 1, pizzaLine 12 9] 110).items =
      some ([colaLine 2 1] ++ pizzaLine 12 9 :: []) := rfl
  have h2 : validateItems menuStore.products [colaLine 2 1] 0 = .ok 2 := by decide!
  have h3 : menuStore.products (pizzaLine 12 9).product =
      some { name := "Pizza", price := 10, stock := 3 } := rfl
  have h4 : |(10 : ℚ) - (pizzaLine 12 9).price| > 1 / 100 := by decide!
  have h5 : (3 : Int) < (pizzaLine 12 9).quantity := by decide
  ⟨h1, h2, h3, h4, h5,
    insufficient_stock_precedes_price_mismatch menuStore alice
      (cartOf [colaLine 2 1, pizzaLine 12 9] 110) 100 0 [colaLine 2 1] [] (pizzaLine 12 9) 2
      { name := "Pizza", price := 10, stock := 3 } h1 h2 h3 h4 h5⟩

/-! ## Create, then cancel -/

theorem quantityOf_castItem (items : List OrderItemInput) (pid : ObjectId) :
    quantityOf (items.map castItem) pid = orderedQuantity items pid := by
  induction items with
  | nil => rfl
  | cons i items ih =>
    rw [List.map_cons, quantityOf_cons, orderedQuantity_cons, ih]
    rfl

theorem findOrder_append_fresh (orders : List Order) (order : Order)
    (hfresh : ∀ o ∈ orders, o.id ≠ order.id) :
    findOrder (orders ++ [order]) order.id = some order := by
  unfold findOrder
  induction orders with
  | nil => simp
  | cons o orders ih =>
    have ho : (o.id == order.id) = false := by
      simpa using hfresh o (List.mem_cons_self _ _)
    rw [List.cons_append, List.find?_cons, ho]
    exact ih (fun x hx => hfresh x (List.mem_cons_of_mem _ hx))

/-- Claim C28.  For every store and every cart for which `createOrder` succeeds (the
generated identifier being new to the order collection), cancelling the created order right
away as its owner succeeds and yields a product collection equal to the one before
`createOrder`: every stock is back at its former value, also when the cart lists a product
in several lines. -/
theorem create_then_cancel_restores_stock (s : Store) (user : Option Principal)
    (input : CreateOrderInput) (newId : ObjectId) (now later : Nat)
    (h : (createOrder s user input newId now).1.success = true)
    (hfresh : ∀ o ∈ s.orders, o.id ≠ newId) :
    (cancelOrder (createOrder s user input newId now).2 user newId later).1.success = true ∧
    (cancelOrder (createOrder s user input newId now).2 user newId later).2.products =
      s.products ∧
    ∀ pid, (cancelOrder (createOrder s user input newId now).2 user newId later).2.products pid
      = s.products pid := by
  obtain ⟨u, items, t, hu, _, _, _, _, hvalid, heq⟩ :=
    createOrder_success_shape s user input newId now h
  subst hu
  have hfind : findOrder (s.orders ++ [newOrder newId now u input items t]) newId =
      some (newOrder newId now u input items t) :=
    findOrder_append_fresh s.orders (newOrder newId now u input items t) hfresh
  have hguard : ¬ (u.role ≠ "admin" ∧ (newOrder newId now u input items t).user ≠ u.id) :=
    fun hg => hg.2 rfl
  have hst : ¬ ((newOrder newId now u input items t).status ≠ .pending) := fun hn => hn rfl
  have hv : orderValid { newOrder newId now u input items t with
      status := .cancelled, updatedAt := later } = true := hvalid
  have hcancel : cancelOrder (createOrder s (some u) input newId now).2 (some u) newId later =
      ({ success := true, message := .orderCancelled,
         order := some { newOrder newId now u input items t with
           status := .cancelled, updatedAt := later } },
       { products := restoreStock (decrementStock s.products items)
           (newOrder newId now u input items t).items,
         orders := setStatus (s.orders ++ [newOrder newId now u input items t]) newId
           .cancelled later }) := by
    rw [heq]
    unfold cancelOrder
    simp only [hfind, if_neg hguard, if_neg hst, if_pos hv]
  have hpoint : ∀ pid, restoreStock (decrementStock s.products items)
      (newOrder newId now u input items t).items pid = s.products pid := by
    intro pid
    show restoreStock (decrementStock s.products items) (items.map castItem) pid = _
    rw [restoreStock_apply, decrementStock_apply, quantityOf_castItem]
    cases s.products pid with
    | none => rfl
    | some p => simp
  rw [hcancel]
  exact ⟨rfl, funext hpoint, hpoint⟩

theorem create_then_cancel_restores_stock_witness :
    (createOrder menuStore (some alice)
      (cartOf [pizzaLine 10 1, colaLine 2 4, pizzaLine 10 2] 38) 100 0).1.success = true ∧
    (∀ o ∈ menuStore.orders, o.id ≠ 100) ∧
    (cancelOrder (createOrder menuStore (some alice)
      (cartOf [pizzaLine 10 1, colaLine 2 4, pizzaLine 10 2] 38) 100 0).2 (some alice) 100
        1).1.success = true ∧
    (cancelOrder (createOrder menuStore (some alice)
      (cartOf [pizzaLine 10 1, colaLine 2 4, pizzaLine 10 2] 38) 100 0).2 (some alice) 100
        1).2.products = menuStore.products ∧
    ∀ pid, (cancelOrder (createOrder menuStore (some alice)
      (cartOf [pizzaLine 10 1, colaLine 2 4, pizzaLine 10 2] 38) 100 0).2 (some alice) 100
        1).2.products pid = menuStore.products pid :=
  ⟨by decide!, by decide,
    create_then_cancel_restores_stock menuStore (some alice)
      (cartOf [pizzaLine 10 1, colaLine 2 4, pizzaLine 10 2] 38) 100 0 1 (by decide!)
      (by decide)⟩

/-! ## The client cart -/

theorem setQuantity_ids (items : List CartItem) (id : ObjectId) (q : Int) :
    (setQuantity items id q).map (fun i => i.id) = items.map (fun i => i.id) := by
  induction items with
  | nil => rfl
  | cons item rest ih =>
    unfold setQuantity
    split_ifs
    · rfl
    · simp only [List.map_cons, ih]

theorem removeItem_ids_sublist (items : List CartItem) (id : ObjectId) :
    ((removeItem items id).map (fun i => i.id)).Sublist (items.map (fun i => i.id)) := by
  induction items with
  | nil => exact List.Sublist.refl _
  | cons item rest ih =>
    unfold removeItem
    split_ifs
    · exact List.sublist_cons_self _ _
    · exact List.Sublist.cons₂ _ ih

theorem addItem_nodup (items : List CartItem) (product : CatalogProduct) (quantity : Int)
    (h : (items.map (fun i => i.id)).Nodup) :
    ((addItem items product quantity).2.map (fun i => i.id)).Nodup := by
  unfold addItem
  cases hf : items.find? (fun item => item.id == product.id) with
  | some existing =>
    simp only
    split_ifs
    · rw [setQuantity_ids]
      exact h
    · exact h
  | none =>
    simp only
    split_ifs
    · rw [List.map_append, List.nodup_append]
      refine ⟨h, List.nodup_singleton _, ?_⟩
      intro a ha hb
      rw [List.find?_eq_none] at hf
      obtain ⟨x, hx, rfl⟩ := List.mem_map.mp ha
      have hxid := hf x hx
      simp only [List.map_cons, List.map_nil, List.mem_singleton] at hb
      simp [hb] at hxid
    · exact h

theorem updateQuantity_nodup (items : List CartItem) (productId : ObjectId) (quantity : Int)
    (h : (items.map (fun i => i.id)).Nodup) :
    ((updateQuantity items productId quantity).map (fun i => i.id)).Nodup := by
  unfold updateQuantity
  cases items.find? (fun item => item.id == productId) with
  | none => exact h
  | some item =>
    simp only
    split_ifs
    · exact h.sublist (removeItem_ids_sublist items productId)
    · rw [setQuantity_ids]
      exact h
    · exact h

theorem run_nodup (items : List CartItem) (c : CartCall)
    (h : (items.map (fun i => i.id)).Nodup) :
    ((c.run items).map (fun i => i.id)).Nodup := by
  cases c with
  | addItem product quantity => exact addItem_nodup items product quantity h
  | updateQuantity productId quantity => exact updateQuantity_nodup items productId quantity h
  | removeItem productId => exact h.sublist (removeItem_ids_sublist items productId)
  | clearCart => exact List.nodup_nil

theorem runCart_nodup (items : List CartItem) (calls : List CartCall)
    (h : (items.map (fun i => i.id)).Nodup) :
    ((runCart items calls).map (fun i => i.id)).Nodup := by
  induction calls generalizing items with
  | nil => exact h
  | cons c calls ih => exact ih (c.run items) (run_nodup items c h)

theorem find_setQuantity (items : List CartItem) (id : ObjectId) (q : Int) (e : CartItem)
    (h : items.find? (fun item => item.id == id) = some e) :
    (setQuantity items id q).find? (fun item => item.id == id) =
      some { e with quantity := q } := by
  induction items with
  | nil => simp at h
  | cons item rest ih =>
    unfold setQuantity
    by_cases hid : item.id = id
    · have hb : (item.id == id) = true := by simp [hid]
      rw [List.find?_cons, hb] at h
      cases h
      simp only [if_pos hid, List.find?_cons, hb]
    · have hb : (item.id == id) = false := by simp [hid]
      rw [List.find?_cons, hb] at h
      simp only [if_neg hid, List.find?_cons, hb]
      exact ih h

/-- In a list without repeated identifiers, the lookup by identifier returns the one entry
that carries the identifier. -/
theorem find_of_mem_nodup (items : List CartItem) (id : ObjectId) (e : CartItem)
    (hnodup : (items.map (fun i => i.id)).Nodup) (hmem : e ∈ items) (hid : e.id = id) :
    items.find? (fun item => item.id == id) = some e := by
  induction items with
  | nil => simp at hmem
  | cons item rest ih =>
    rw [List.map_cons, List.nodup_cons] at hnodup
    rcases List.mem_cons.mp hmem with rfl | hrest
    · have hb : (e.id == id) = true := by simp [hid]
      rw [List.find?_cons, hb]
    · have hne : item.id ≠ id := by
        intro hitem
        apply hnodup.1
        rw [hitem, ← hid]
        exact List.mem_map_of_mem (fun i => i.id) hrest
      have hb : (item.id == id) = false := by simp [hne]
      rw [List.find?_cons, hb]
      exact ih hnodup.2 hrest

/-- What `addItem` leaves behind when it returns `true`: the entry found under the
identifier of the product has a quantity of at most the stock of the product. -/
theorem addItem_true_find (items : List CartItem) (product : CatalogProduct) (quantity : Int)
    (h : (addItem items product quantity).1 = true) :
    ∃ e, (addItem items product quantity).2.find? (fun i => i.id == product.id) = some e ∧
      e.quantity ≤ product.stock := by
  unfold addItem at h ⊢
  cases hf : items.find? (fun item => item.id == product.id) with
  | some existing =>
    simp only [hf] at h ⊢
    by_cases hq : existing.quantity + quantity ≤ product.stock
    · simp only [if_pos hq]
      exact ⟨_, find_setQuantity items product.id _ existing hf, hq⟩
    · simp only [if_neg hq] at h
      simp at h
  | none =>
    simp only [hf] at h ⊢
    by_cases hq : quantity ≤ product.stock
    · simp only [if_pos hq]
      refine ⟨{ id := product.id, name := product.name, price := product.price,
                quantity := quantity, image := product.image.getD "",
                stock := product.stock }, ?_, hq⟩
      rw [List.find?_append, hf]
      simp
    · simp only [if_neg hq] at h
      simp at h

/-- Claim C29.  Starting from an empty cart, after any sequence of `addItem`,
`updateQuantity`, `removeItem` and `clearCart` calls no two entries carry the same product
identifier.  On any cart, when `addItem` returns `true` the entry found under the identifier
of the product has afterwards a quantity of at most the stock of the product passed in (on a
cart reached from the empty one this is every entry with that identifier), and when it
returns `false` the items are unchanged. -/
theorem cart_invariant (calls : List CartCall) (items : List CartItem)
    (product : CatalogProduct) (quantity : Int) :
    ((runCart [] calls).map (fun i => i.id)).Nodup ∧
    ((addItem items product quantity).1 = true →
      ∃ e, (addItem items product quantity).2.find? (fun i => i.id == product.id) = some e ∧
        e.quantity ≤ product.stock) ∧
    ((addItem (runCart [] calls) product quantity).1 = true →
      ∀ e ∈ (addItem (runCart [] calls) product quantity).2, e.id = product.id →
        e.quantity ≤ product.stock) ∧
    ((addItem items product quantity).1 = false →
      (addItem items product quantity).2 = items) := by
  have hreach := runCart_nodup [] calls List.nodup_nil
  refine ⟨hreach, addItem_true_find items product quantity, ?_, ?_⟩
  · intro htrue e hmem hid
    obtain ⟨e0, hfind, hle⟩ := addItem_true_find (runCart [] calls) product quantity htrue
    have hnodup := addItem_nodup (runCart [] calls) product quantity hreach
    have := find_of_mem_nodup _ product.id e hnodup hmem hid
    rw [hfind] at this
    cases this
    exact hle
  · intro hfalse
    unfold addItem at hfalse ⊢
    cases hf : items.find? (fun item => item.id == product.id) with
    | some existing =>
      simp only [hf] at hfalse ⊢
      split_ifs at hfalse ⊢
      rfl
    | none =>
      simp only [hf] at hfalse ⊢
      split_ifs at hfalse ⊢
      rfl

/-- The cart evaluated: adding 2 and then 3 pizzas (stock 5) merges into one entry of 5; a
further pizza is refused and changes nothing; an update to 0 removes the entry. -/
theorem cart_example :
    (runCart [] [.addItem pizzaProduct 2, .addItem pizzaProduct 3, .addItem colaProduct 1]).map
      (fun i => (i.id, i.quantity)) = [(1, 5), (2, 1)] ∧
    (addItem (runCart [] [.addItem pizzaProduct 2, .addItem pizzaProduct 3]) pizzaProduct 1).1
      = false ∧
    (addItem (runCart [] [.addItem pizzaProduct 2, .addItem pizzaProduct 3]) pizzaProduct 1).2
      = runCart [] [.addItem pizzaProduct 2, .addItem pizzaProduct 3] ∧
    (runCart [] [.addItem pizzaProduct 2, .addItem colaProduct 1, .updateQuantity 1 0]).map
      (fun i => (i.id, i.quantity)) = [(2, 1)] := by
  refine ⟨by decide!, by decide!, by decide!, by decide!⟩

/-! ## Client total and server total -/

theorem foldl_cart_total (items : List CartItem) (a : ℚ) :
    items.foldl (fun sum item => sum + item.price * (item.quantity : ℚ)) a =
      a + ((items.map toOrderLine).map (fun i => i.price * (i.quantity : ℚ))).sum := by
  induction items generalizing a with
  | nil => simp
  | cons e items ih =>
    rw [List.foldl_cons, ih]
    simp [toOrderLine, add_assoc]

/-- On a cart whose entries carry the live prices and quantities within the live stock, the
validation loop of the server runs through and accumulates the very sum that `getTotal`
accumulates, entry by entry in the same order. -/
theorem validateItems_cart (products : ObjectId → Option Product) (items : List CartItem)
    (acc : ℚ)
    (hlive : ∀ e ∈ items, ∃ p, products e.id = some p ∧ p.price = e.price ∧
      e.quantity ≤ p.stock) :
    validateItems products (items.map toOrderLine) acc =
      .ok (items.foldl (fun sum item => sum + item.price * (item.quantity : ℚ)) acc) := by
  induction items generalizing acc with
  | nil => rfl
  | cons e items ih =>
    obtain ⟨p, hp, hprice, hstock⟩ := hlive e (List.mem_cons_self _ _)
    have hp2 : products (toOrderLine e).product = some p := hp
    have h1 : ¬ (p.stock < (toOrderLine e).quantity) := not_lt.mpr hstock
    have h2 : ¬ (|p.price - (toOrderLine e).price| > 1 / 100) := by
      show ¬ (|p.price - e.price| > 1 / 100)
      rw [hprice, sub_self, abs_zero]
      norm_num
    rw [List.map_cons, List.foldl_cons]
    simp only [validateItems, hp2, if_neg h1, if_neg h2]
    rw [ih _ (fun x hx => hlive x (List.mem_cons_of_mem _ hx)), hprice]
    rfl

/-- Claim C30.  For every cart, the payload of `prepareOrderData` has as total the sum of
price times quantity over its own items.  If every cart entry carries the live price of its
product and a quantity of at most the live stock, the validation loop of `createOrder`
accepts every line and its calculated total is exactly the claimed total of the payload, so
that the total check passes with difference zero and, the cart not being empty, the call
does not end in a validation failure. -/
theorem client_total_agrees (s : Store) (u : Principal) (items : List CartItem)
    (shippingAddress : ShippingAddress) (notes : String) (newId : ObjectId) (now : Nat)
    (hlive : ∀ e ∈ items, ∃ p, s.products e.id = some p ∧ p.price = e.price ∧
      e.quantity ≤ p.stock) :
    (prepareOrderData items shippingAddress notes).total =
      ((items.map toOrderLine).map (fun i => i.price * (i.quantity : ℚ))).sum ∧
    (prepareOrderData items shippingAddress notes).items = some (items.map toOrderLine) ∧
    validateItems s.products (items.map toOrderLine) 0 =
      .ok (prepareOrderData items shippingAddress notes).total ∧
    liveTotal s.products (items.map toOrderLine) =
      (prepareOrderData items shippingAddress notes).total ∧
    (items ≠ [] →
      (createOrder s (some u) (prepareOrderData items shippingAddress notes) newId
        now).1.message.isValidationFailure = false) := by
  have htotal : (prepareOrderData items shippingAddress notes).total =
      ((items.map toOrderLine).map (fun i => i.price * (i.quantity : ℚ))).sum := by
    show getTotal items = _
    unfold getTotal
    rw [foldl_cart_total, zero_add]
  have hval : validateItems s.products (items.map toOrderLine) 0 =
      .ok (prepareOrderData items shippingAddress notes).total :=
    validateItems_cart s.products items 0 hlive
  have hlt : liveTotal s.products (items.map toOrderLine) =
      (prepareOrderData items shippingAddress notes).total := by
    have := validateItems_ok_total s.products (items.map toOrderLine) 0 _ hval
    rw [zero_add] at this
    exact this.symm
  refine ⟨htotal, rfl, hval, hlt, ?_⟩
  intro hne
  have hne2 : items.map toOrderLine ≠ [] := by
    intro hnil
    exact hne (List.map_eq_nil_iff.mp hnil)
  rw [createOrder_of_validate_ok s u (prepareOrderData items shippingAddress notes) newId now
    (items.map toOrderLine) _ rfl hne2 hval]
  have hzero : ¬ (|(prepareOrderData items shippingAddress notes).total -
      (prepareOrderData items shippingAddress notes).total| > 1 / 100) := by
    rw [sub_self, abs_zero]
    norm_num
  rw [if_neg hzero]
  split_ifs <;> rfl

theorem client_total_agrees_witness :
    (∀ e ∈ sampleCart, ∃ p, menuStore.products e.id = some p ∧ p.price = e.price ∧
      e.quantity ≤ p.stock) ∧
    (prepareOrderData sampleCart madrid "").total =
      ((sampleCart.map toOrderLine).map (fun i => i.price * (i.quantity : ℚ))).sum ∧
    (prepareOrderData sampleCart madrid "").items = some (sampleCart.map toOrderLine) ∧
    validateItems menuStore.products (sampleCart.map toOrderLine) 0 =
      .ok (prepareOrderData sampleCart madrid "").total ∧
    liveTotal menuStore.products (sampleCart.map toOrderLine) =
      (prepareOrderData sampleCart madrid "").total ∧
    (sampleCart ≠ [] →
      (createOrder menuStore (some alice) (prepareOrderData sampleCart madrid "") 100
        0).1.message.isValidationFailure = false) :=
  have hlive : ∀ e ∈ sampleCart, ∃ p, menuStore.products e.id = some p ∧ p.price = e.price ∧
      e.quantity ≤ p.stock := by
    intro e he
    unfold sampleCart at he
    rcases List.mem_cons.mp he with rfl | he
    · exact ⟨{ name := "Pizza", price := 10, stock := 3 }, rfl, rfl, by decide⟩
    · rcases List.mem_cons.mp he with rfl | he
      · exact ⟨{ name := "Cola", price := 2, stock := 10 }, rfl, rfl, by decide⟩
      · cases he
  ⟨hlive, client_total_agrees menuStore alice sampleCart madrid "" 100 0 hlive⟩

/-- The checkout of `sampleCart` evaluated: the payload claims the total 26 and
`createOrder` accepts it, storing an order with that total. -/
theorem checkout_example :
    (prepareOrderData sampleCart madrid "").total = 26 ∧
    (createOrder menuStore (some alice) (prepareOrderData sampleCart madrid "") 100 0).1.success
      = true ∧
    (createOrder menuStore (some alice) (prepareOrderData sampleCart madrid "") 100 0).2.orders.map
      (fun o => o.total) = [26] := by
  refine ⟨by decide!, by decide!, by decide!⟩

/-! ## Visibility of orders, as the queries implement it -/

/-- Claim C22 (amended).  For every authenticated principal, whatever its role,
`Query.orders` returns stored orders only; when a status filter is supplied every returned
order has that status; every returned order is owned by the principal when the role of the
principal is `user`; and no stored order that matches the filter is omitted, provided it is
owned by the principal when the role is `user`.  The REST handler `GET /api/orders` returns
only orders owned by the caller, whatever the role of the caller. -/
theorem orders_listing_visibility (s : Store) (u : Principal) (status : Option String) :
    (∃ l, ordersQuery s (some u) status = .ok l ∧
      (∀ o ∈ l, o ∈ s.orders) ∧
      (∀ st, statusFilter status = some st → ∀ o ∈ l, statusName o.status = st) ∧
      (u.role = "user" → ∀ o ∈ l, o.user = u.id) ∧
      (∀ o ∈ s.orders, (u.role = "user" → o.user = u.id) →
        (∀ st, statusFilter status = some st → statusName o.status = st) → o ∈ l)) ∧
    (∀ (v : Principal) (l : List Order), restOrders s (some v) status = .ok l →
      ∀ o ∈ l, o.user = v.id) := by
  constructor
  · obtain ⟨l, hl, hmem⟩ := ordersQuery_mem s u status
    refine ⟨l, hl, ?_, ?_, ?_, ?_⟩
    · intro o ho
      exact ((hmem o).mp ho).1
    · intro st hst o ho
      exact ((hmem o).mp ho).2.2 st hst
    · intro hrole o ho
      exact ((hmem o).mp ho).2.1 hrole
    · intro o ho howner hstatus
      exact (hmem o).mpr ⟨ho, howner, hstatus⟩
  · intro v l hl
    exact restOrders_owned s v status l hl

theorem orders_listing_visibility_witness :
    (∃ l, ordersQuery statsStore (some alice) (some "completed") = .ok l ∧
      (∀ o ∈ l, o ∈ statsStore.orders) ∧
      (∀ st, statusFilter (some "completed") = some st → ∀ o ∈ l, statusName o.status = st) ∧
      (alice.role = "user" → ∀ o ∈ l, o.user = alice.id) ∧
      (∀ o ∈ statsStore.orders, (alice.role = "user" → o.user = alice.id) →
        (∀ st, statusFilter (some "completed") = some st → statusName o.status = st) →
        o ∈ l)) ∧
    (∀ (v : Principal) (l : List Order),
      restOrders statsStore (some v) (some "completed") = .ok l → ∀ o ∈ l, o.user = v.id) :=
  orders_listing_visibility statsStore alice (some "completed")

/-- The listing evaluated on `statsStore`: alice, whose role is `user`, sees her completed
order and nothing under the filter `pending`; an administrator sees both orders, the newest
first. -/
theorem orders_listing_example :
    (ordersQuery statsStore (some alice) none).toOption.map (fun l => l.map (fun o => o.id))
      = some [100] ∧
    (ordersQuery statsStore (some alice) (some "pending")).toOption.map
      (fun l => l.map (fun o => o.id)) = some [] ∧
    (ordersQuery statsStore (some adminUser) none).toOption.map
      (fun l => l.map (fun o => o.id)) = some [101, 100] := by
  refine ⟨by decide!, by decide!, by decide!⟩

end Shop
